import Mathlib

/-!
Shallow embedding of the client-side RPCSEC_GSS engine of `src/NFS/kext/nfs_gss.c`
(sequence window, context lifecycle, negotiation loop, wire codec, registry
reaping).  Machine integers are modelled as `Nat` with explicit reduction
modulo `2^32` where the C code computes on `uint32_t`.  Mbuf chains are
modelled as lists of byte lists.  The opaque GSS cryptographic capability
(MIC computation, wrap/unwrap, MIC verification) is an external collaborator
of the code under specification and is passed in as function parameters.
-/

/-! ## Constants (from nfs_gss.c and the NFS headers it includes) -/

/-- NFSX_UNSIGNED: size of one XDR word (4 bytes). -/
def NFSX_UNSIGNED : Nat := 4

/-- KRB5_MAX_MIC_SIZE from nfs_gss.c line 99. -/
def KRB5_MAX_MIC_SIZE : Nat := 128

/-- Modelled from the spec: the negative-cache grace period GSS_NEG_CACHE_TO
(declared in nfs_gss.h, which is not part of src/); only its positivity and
use sites matter to the claims. -/
def GSS_NEG_CACHE_TO : Nat := 3

/-- Modelled from the spec: the negative-cache ceiling
GSS_MAX_NEG_CACHE_ENTRIES (declared in nfs_gss.h, not in src/). -/
def GSS_MAX_NEG_CACHE_ENTRIES : Nat := 10

/-- Modelled from the spec: cap on retained per-request sequence records,
GSS_CLNT_SEQLISTMAX (declared in nfs_gss.h, not in src/). -/
def GSS_CLNT_SEQLISTMAX : Nat := 32

/-- Modelled from the spec: initial retry delay NFS_TRYLATERDEL (declared in
the NFS client headers, not in src/); the retry loop doubles it and caps it
at 60 seconds. -/
def NFS_TRYLATERDEL : Nat := 4

/-- GSS major status: GSS_S_COMPLETE. -/
def GSS_S_COMPLETE : Nat := 0

/-- GSS major status: GSS_S_CONTINUE_NEEDED. -/
def GSS_S_CONTINUE_NEEDED : Nat := 1

/-- RPCSEC_GSS procedure numbers (RFC 2203). -/
def RPCSEC_GSS_DATA : Nat := 0

def RPCSEC_GSS_INIT : Nat := 1

def RPCSEC_GSS_CONTINUE_INIT : Nat := 2

def RPCSEC_GSS_DESTROY : Nat := 3

/-- RPC auth flavors used by the verifier logic. -/
def RPCAUTH_NULL : Nat := 0

def RPCSEC_GSS : Nat := 6

/-- errno values used by the modelled code paths. -/
def ENXIO : Nat := 6

def EACCES : Nat := 13

def EINVAL : Nat := 22

def ETIMEDOUT : Nat := 60

def EBADRPC : Nat := 72

/-- NFSERR_EAUTH (= EAUTH). -/
def NFSERR_EAUTH : Nat := 80

def ENEEDAUTH : Nat := 81

/-- Modulus of `uint32_t` arithmetic. -/
def UINT32_MOD : Nat := 4294967296

/-- `uint32_t` addition. -/
def add32 (a b : Nat) : Nat := (a + b) % UINT32_MOD

/-- `uint32_t` subtraction. -/
def sub32 (a b : Nat) : Nat := (a + (UINT32_MOD - b % UINT32_MOD)) % UINT32_MOD

/-! ## Mbuf chains

An mbuf chain is a list of mbufs; each mbuf carries a list of bytes.
`nfs_gss.c` manipulates chains through `mbuf_adj`, `mbuf_len`, `mbuf_next`,
explicit frees of empty leading mbufs, and `nfsm_chain` appends. -/

/-- An mbuf chain: each element is the data of one mbuf. -/
abbrev Mchain := List (List Nat)

/-- Total byte content of a chain, in order (what the wire sees). -/
def mchain_flatten (c : Mchain) : List Nat := c.flatten

/-- nfs_gss_mchain_length: total number of bytes in an mbuf chain. -/
def nfs_gss_mchain_length (c : Mchain) : Nat := (c.map List.length).sum

/-- mbuf_adj with a positive count: trim bytes from the front of the chain,
leaving fully-trimmed leading mbufs in place with zero length (as the
kernel's mbuf_adj does). -/
def mbuf_adj : Mchain → Nat → Mchain
  | [], _ => []
  | b :: bs, n => if n ≤ b.length then b.drop n :: bs else [] :: mbuf_adj bs (n - b.length)

/-- Free the run of zero-length mbufs at the head of a chain (the explicit
"chop off any empty mbufs" loops in the restore routines). -/
def mchain_drop_empty : Mchain → Mchain
  | [] => []
  | b :: bs => if b.length = 0 then mchain_drop_empty bs else b :: bs

/-- XDR big-endian encoding of a 32-bit word (txdr_unsigned / nfsm_chain_add_32). -/
def txdr32 (v : Nat) : List Nat :=
  [v / 16777216 % 256, v / 65536 % 256, v / 256 % 256, v % 256]

/-- nfsm_rndup: round a length up to a 4-byte boundary. -/
def nfsm_rndup (n : Nat) : Nat := (n + 3) / 4 * 4

/-- nfsm_pad: number of XDR pad bytes needed after n bytes. -/
def nfsm_pad (n : Nat) : Nat := nfsm_rndup n - n

/-! ## Wire codec: rpc_gss_integ_data and rpc_gss_priv_data (nfs_gss.c 171-419) -/

/-- rpc_gss_data_create: prepend the sequence number, in its own mbuf, to the
argument or result chain. -/
def rpc_gss_data_create (c : Mchain) (seqnum : Nat) : Mchain :=
  txdr32 seqnum :: c

/-- rpc_gss_prepend_32: prepend a 32-bit length to the chain; mbuf_prepend
extends the head mbuf (rpc_gss_data_create reserved leading space for it). -/
def rpc_gss_prepend_32 (c : Mchain) (v : Nat) : Mchain :=
  match c with
  | [] => [txdr32 v]
  | b :: bs => (txdr32 v ++ b) :: bs

/-- rpc_gss_integ_data_create: build
`{ length, seqnum, body, mic-length, mic-bytes(+pad) }` with the MIC (computed
by the opaque GSS capability `mic`) over the seqnum-prefixed body, the MIC
forced into its own sub-chain.  Returns the new chain together with the
`*len` out-parameter (the body length, excluding padding and the seqnum). -/
def rpc_gss_integ_data_create (mic : List Nat → List Nat) (c : Mchain) (seqnum : Nat) :
    Mchain × Nat :=
  let length0 := nfs_gss_mchain_length c
  let c1 := rpc_gss_data_create c seqnum
  let length := length0 + NFSX_UNSIGNED
  let micv := mic (mchain_flatten c1)
  let c2 := rpc_gss_prepend_32 c1 length
  let micbuf := txdr32 micv.length ++ micv ++ List.replicate (nfsm_pad micv.length) 0
  (c2 ++ [micbuf], length0)

/-- Walk of rpc_gss_integ_data_restore: traverse mbufs while bytes remain of
the argument length, then cut the chain after the last traversed mbuf
(dropping the MIC sub-chain); an mbuf boundary falling inside the remaining
length is a decode error. -/
def rpc_gss_integ_restore_walk : Mchain → Nat → Except Nat Mchain
  | [], _ => .ok []
  | mb :: rest, len =>
    if len = 0 then .ok []
    else if mb.length ≤ len then
      match rpc_gss_integ_restore_walk rest (len - mb.length) with
      | .ok r => .ok (mb :: r)
      | .error e => .error e
    else .error EBADRPC

/-- rpc_gss_integ_data_restore: chop the opaque length and sequence number
(8 bytes), free the emptied leading mbufs, then drop the MIC sub-chain after
`len` bytes of arguments.  When `len = 0` the C loop never runs, `tail` stays
NULL and no chop happens. -/
def rpc_gss_integ_data_restore (c : Mchain) (len : Nat) : Except Nat Mchain :=
  let c1 := mbuf_adj c (2 * NFSX_UNSIGNED)
  let c2 := mchain_drop_empty c1
  if len = 0 then .ok c2
  else rpc_gss_integ_restore_walk c2 len

/-- rpc_gss_priv_data_create: prepend the sequence number, wrap the whole
chain into an opaque token via the GSS capability `wrap`, prepend the token
length, and append XDR padding in its own sub-chain when needed.  Returns the
chain and the `*len` out-parameter (token length, excluding padding). -/
def rpc_gss_priv_data_create (wrap : List Nat → List Nat) (c : Mchain) (seqnum : Nat) :
    Mchain × Nat :=
  let c1 := rpc_gss_data_create c seqnum
  let tok := wrap (mchain_flatten c1)
  let c2 : Mchain := [tok]
  let length := tok.length
  let pad := nfsm_pad length
  let c3 := rpc_gss_prepend_32 c2 length
  ((if pad ≠ 0 then c3 ++ [List.replicate pad 0] else c3), length)

/-- Pad-stripping walk of rpc_gss_priv_data_restore: accumulate mbuf lengths
until the token length is reached; the boundary must fall exactly at an mbuf
boundary and a pad mbuf must follow, else EBADRPC. -/
def rpc_gss_priv_restore_walk : Mchain → Nat → Except Nat Mchain
  | c, 0 => if c.isEmpty then .error EBADRPC else .ok []
  | [], _ => .error EBADRPC
  | mb :: rest, len =>
    if len < mb.length then .error EBADRPC
    else
      match rpc_gss_priv_restore_walk rest (len - mb.length) with
      | .ok r => .ok (mb :: r)
      | .error e => .error e

/-- rpc_gss_priv_data_restore: chop the opaque length, strip the XDR padding
sub-chain when the recorded token length requires padding, unwrap the token
via the GSS capability `unwrap` (the unwrapped chain carries the 4-byte
sequence number in its leading mbuf), drop the sequence number and the
emptied leading mbufs. -/
def rpc_gss_priv_data_restore (unwrap : List Nat → List Nat) (c : Mchain) (len : Nat) :
    Except Nat Mchain :=
  let c1 := mbuf_adj c NFSX_UNSIGNED
  let plen := nfsm_pad len
  match (if plen ≠ 0 then rpc_gss_priv_restore_walk c1 len else .ok c1) with
  | .error e => .error e
  | .ok c2 =>
    let recovered := unwrap ((mchain_flatten c2).take len)
    let c3 : Mchain := [recovered.take NFSX_UNSIGNED, recovered.drop NFSX_UNSIGNED]
    .ok (mchain_drop_empty (mbuf_adj c3 NFSX_UNSIGNED))

/-! ## Security context state (struct nfs_gss_clnt_ctx)

The gss_clnt_flags bitfield is modelled as a record of booleans; the opaque
gss_clnt_ctx_id crypto handle is tracked only by presence. -/

/-- The context flag bits GSS_CTX_COMPLETE, GSS_CTX_INVAL, GSS_CTX_STICKY,
GSS_CTX_DESTROY, GSS_CTX_USECOUNT, GSS_NEEDCTX, GSS_NEEDSEQ. -/
structure GssFlags where
  complete : Bool
  inval : Bool
  sticky : Bool
  destroy : Bool
  usecount : Bool
  needctx : Bool
  needseq : Bool
  deriving Repr, DecidableEq

/-- All flag bits clear. -/
def GssFlags.clear : GssFlags := ⟨false, false, false, false, false, false, false⟩

/-- One client security context.  `cid` stands in for the struct's address
(identity inside the per-mount list); `asid` is the audit session id of
gss_clnt_cred; `principal` is gss_clnt_principal/prinlen/prinnt; `hasCtxId`
records whether gss_clnt_ctx_id is non-NULL. -/
structure ClntCtx where
  cid : Nat
  refcnt : Int
  flags : GssFlags
  seqnum : Nat
  seqwin : Nat
  seqbits : List Bool
  nctime : Nat
  asid : Nat
  principal : Option (List Nat × Nat)
  hasCtxId : Bool
  deriving Repr, DecidableEq

/-- Per-mount registry state: the nm_gsscl context list (front = head) and
the negative-cache entry count nm_ncentries. -/
structure MountState where
  nm_gsscl : List ClntCtx
  nm_ncentries : Int
  deriving Repr, DecidableEq

/-! ## Sequence window (nfs_gss_clnt_cred_put 845-868, nfs_gss_clnt_rpcdone 2096-2152)

The win_getbit/win_setbit/win_resetbit bitmap macros live in nfs_gss.h, which
is not part of src/; they are modelled from the spec as operations on a
`List Bool` indexed by window slot. -/

/-- Modelled from the spec: win_getbit of nfs_gss.h — read the bitmap bit of
a window slot. -/
def win_getbit (bits : List Bool) (bit : Nat) : Bool := bits.getD bit false

/-- Modelled from the spec: win_setbit of nfs_gss.h — set the bitmap bit of a
window slot. -/
def win_setbit (bits : List Bool) (bit : Nat) : List Bool := bits.set bit true

/-- Modelled from the spec: win_resetbit of nfs_gss.h — clear the bitmap bit
of a window slot. -/
def win_resetbit (bits : List Bool) (bit : Nat) : List Bool := bits.set bit false

/-- The wait condition of the sequence-window acquisition in
nfs_gss_clnt_cred_put: the caller blocks while the bit of slot
`((seqnum - seqwin) + 1) mod seqwin` is still set (uint32 arithmetic). -/
def cred_put_seq_blocked (cp : ClntCtx) : Bool :=
  win_getbit cp.seqbits (add32 (sub32 cp.seqnum cp.seqwin) 1 % cp.seqwin)

/-- The acquisition step of nfs_gss_clnt_cred_put once the window has room:
`seqnum = ++cp->gss_clnt_seqnum; win_setbit(seqbits, seqnum % seqwin)`;
returns the updated context and the assigned sequence number. -/
def cred_put_seq_acquire (cp : ClntCtx) : ClntCtx × Nat :=
  let s := add32 cp.seqnum 1
  ({ cp with seqnum := s, seqbits := win_setbit cp.seqbits (s % cp.seqwin) }, s)

/-- Iterated acquisition (n consecutive requests, no releases). -/
def cred_put_seq_acquireN : ClntCtx → Nat → ClntCtx
  | cp, 0 => cp
  | cp, n + 1 => cred_put_seq_acquireN (cred_put_seq_acquire cp).1 n

/-- nfs_gss_clnt_rpcdone: on completion of a request, clear the window bit of
the request's most recent sequence number provided it is still inside the
live window (`gss_seqnum > seqnum - seqwin`, uint32), trim the request's
sequence-number list to GSS_CLNT_SEQLISTMAX entries, and wake any thread
waiting on GSS_NEEDSEQ.  Returns the updated context, the trimmed list, and
whether a wakeup was issued. -/
def nfs_gss_clnt_rpcdone (cp : ClntCtx) (seqlist : List Nat) :
    ClntCtx × List Nat × Bool :=
  if ¬cp.flags.complete then (cp, seqlist, false)
  else
    let cp :=
      match seqlist with
      | s :: _ =>
        if sub32 cp.seqnum cp.seqwin < s then
          { cp with seqbits := win_resetbit cp.seqbits (s % cp.seqwin) }
        else cp
      | [] => cp
    let seqlist := seqlist.take GSS_CLNT_SEQLISTMAX
    if cp.flags.needseq then
      ({ cp with flags.needseq := false }, seqlist, true)
    else (cp, seqlist, false)

/-! ## Reference counting (nfs_gss_clnt_ctx_ref 2156-2164, nfs_gss_clnt_ctx_unref 2171-2243)
and negative-cache reaping (nfs_gss_clnt_ctx_neg_cache_reap 2245-2288) -/

/-- nfs_gss_clnt_ctx_ref: bump the reference count under the context lock. -/
def nfs_gss_clnt_ctx_ref (cp : ClntCtx) : ClntCtx :=
  { cp with refcnt := cp.refcnt + 1 }

/-- nfs_gss_clnt_ctx_neg_cache_reap: walk the context list from the head,
skipping STICKY or still-valid contexts, stopping once nm_ncentries is at or
under GSS_MAX_NEG_CACHE_ENTRIES, skipping entries younger than
GSS_NEG_CACHE_TO, and destroying (removing) unreferenced entries.  The C code
executes `nmp->nm_ncentries++` when it removes an entry; this is modelled
verbatim.  Returns the remaining list, the final nm_ncentries, and the number
of contexts reaped. -/
def nfs_gss_clnt_ctx_neg_cache_reap (now : Nat) :
    List ClntCtx → Int → List ClntCtx × Int × Nat
  | [], n => ([], n, 0)
  | cp :: rest, n =>
    if cp.flags.sticky ∨ ¬cp.flags.inval then
      let (l, n2, r) := nfs_gss_clnt_ctx_neg_cache_reap now rest n
      (cp :: l, n2, r)
    else if n ≤ (GSS_MAX_NEG_CACHE_ENTRIES : Int) then (cp :: rest, n, 0)
    else if now ≤ cp.nctime + GSS_NEG_CACHE_TO then
      let (l, n2, r) := nfs_gss_clnt_ctx_neg_cache_reap now rest n
      (cp :: l, n2, r)
    else if cp.refcnt = 0 then
      let (l, n2, r) := nfs_gss_clnt_ctx_neg_cache_reap now rest (n + 1)
      (l, n2, r + 1)
    else
      let (l, n2, r) := nfs_gss_clnt_ctx_neg_cache_reap now rest n
      (cp :: l, n2, r)

/-- Result of nfs_gss_clnt_ctx_unref: either the fatal
"Over release of gss context!" panic, or the updated mount state together
with the surviving context (none when it was destroyed). -/
inductive UnrefRes where
  | panic : UnrefRes
  | ok : MountState → Option ClntCtx → UnrefRes
  deriving Repr, DecidableEq

/-- The refcnt-reached-zero step of nfs_gss_clnt_ctx_unref: release the
crypto handle of an INVAL context, and honor a pending DESTROY (dropping the
mount use-count and noting whether the entry sat in the negative cache).
Returns the updated context, the destroy decision, and the on_neg_cache
note. -/
def unref_zero_step (cp : ClntCtx) (r : Int) : ClntCtx × Bool × Bool :=
  if r = 0 then
    let cp1 := if cp.flags.inval ∧ cp.hasCtxId then { cp with hasCtxId := false } else cp
    if cp1.flags.destroy then
      let cp2 := if cp1.flags.usecount then { cp1 with flags.usecount := false } else cp1
      (cp2, true, cp2.nctime != 0)
    else (cp1, false, false)
  else (cp, false, false)

/-- The negative-cache stamping step of nfs_gss_clnt_ctx_unref: a surviving
(not destroyed) INVAL context with no timestamp yet gets stamped `now` and is
counted into the negative cache. -/
def unref_stamp (now : Nat) (cp : ClntCtx) (destroy : Bool) : ClntCtx × Bool :=
  if ¬destroy ∧ cp.nctime = 0 ∧ cp.flags.inval then ({ cp with nctime := now }, true)
  else (cp, false)

/-- nfs_gss_clnt_ctx_unref acting on the context `cp` (assumed to be the
list entry with the same cid): decrement the reference count (panicking if it
would go negative); on reaching zero, apply `unref_zero_step`; a surviving
newly-INVAL context with no timestamp is stamped `now` (`unref_stamp`),
counted into the negative cache, and a reap is triggered; a destroyed entry
is removed from the list, decrementing nm_ncentries if it sat in the
negative cache. -/
def nfs_gss_clnt_ctx_unref (now : Nat) (mnt : MountState) (cp : ClntCtx) : UnrefRes :=
  let r := cp.refcnt - 1
  if r < 0 then .panic
  else
    let zs := unref_zero_step cp r
    let st := unref_stamp now zs.1 zs.2.1
    let cpB := { st.1 with refcnt := r }
    if zs.2.1 then
      .ok { nm_gsscl := mnt.nm_gsscl.filter (fun c => c.cid ≠ cp.cid),
            nm_ncentries := mnt.nm_ncentries - (if zs.2.2 then 1 else 0) } none
    else
      let lst := mnt.nm_gsscl.map (fun c => if c.cid = cp.cid then cpB else c)
      if st.2 then
        let reaped := nfs_gss_clnt_ctx_neg_cache_reap now lst (mnt.nm_ncentries + 1)
        .ok { nm_gsscl := reaped.1, nm_ncentries := reaped.2.1 } (some cpB)
      else .ok { nm_gsscl := lst, nm_ncentries := mnt.nm_ncentries } (some cpB)

/-! ## Context lookup (nfs_gss_clnt_ctx_find_principal 583-769) -/

/-- The identity and principal request carried by the nfsreq performing the
lookup (r_cred's audit session id and uid, plus an optional explicit
principal with its name type). -/
structure FindReq where
  asid : Nat
  uid : Nat
  principal : Option (List Nat × Nat)
  deriving Repr, DecidableEq

/-- What the TAILQ_FOREACH scan of nfs_gss_clnt_ctx_find_principal decides
for the first matching entry. -/
inductive FindLoopRes where
  | eauth : FindLoopRes
  | found : Nat → FindLoopRes
  | copyRenew : Nat → FindLoopRes
  | reuse : Nat → FindLoopRes
  | prinMismatch : FindLoopRes
  | endOfList : FindLoopRes
  deriving Repr, DecidableEq

/-- The match-and-classify scan of nfs_gss_clnt_ctx_find_principal: skip
GSS_CTX_DESTROY entries; on the first audit-session match, tear down a
principal mismatch, fail INVAL entries that are unexpired (or not yet
timestamped) with EAUTH, renew still-referenced INVAL entries via a copy,
evict unreferenced INVAL entries for reuse, and take valid entries. -/
def nfs_gss_clnt_ctx_find_loop (req : FindReq) (now : Nat) :
    List ClntCtx → FindLoopRes
  | [] => .endOfList
  | cp :: rest =>
    if cp.flags.destroy then nfs_gss_clnt_ctx_find_loop req now rest
    else if cp.asid = req.asid then
      if (match req.principal with
          | some pn => cp.principal != some pn
          | none => false) then .prinMismatch
      else if cp.flags.inval then
        if now ≤ cp.nctime + GSS_NEG_CACHE_TO ∨ cp.nctime = 0 then .eauth
        else if cp.refcnt ≠ 0 then .copyRenew cp.cid
        else .reuse cp.cid
      else .found cp.cid
    else nfs_gss_clnt_ctx_find_loop req now rest

/-- Overall outcome of nfs_gss_clnt_ctx_find_principal, classifying which
code path runs after the scan: a fast EAUTH failure (no gssd upcall, no new
context), handing out a valid cached context, adopting another identity's
context (root steal), or negotiating (via nfs_gss_clnt_ctx_init_retry and
hence the gssd upcall) a fresh, copied, or recycled context. -/
inductive FindOutcome where
  | eauth : FindOutcome
  | found : Nat → FindOutcome
  | rootSteal : Nat → FindOutcome
  | negotiateCopy : Nat → FindOutcome
  | negotiateReuse : Nat → FindOutcome
  | negotiateNew : FindOutcome
  deriving Repr, DecidableEq

/-- nfs_gss_clnt_ctx_find_principal: run the scan; when it ends with no
usable match, apply the superuser steal (first non-INVAL, non-DESTROY entry)
when enabled for an explicit-principal-free root request, and otherwise
create (or recycle) a context and negotiate it. -/
def nfs_gss_clnt_ctx_find_principal (req : FindReq) (now : Nat)
    (nfs_root_steals_ctx : Bool) (ctxs : List ClntCtx) : FindOutcome :=
  match nfs_gss_clnt_ctx_find_loop req now ctxs with
  | .eauth => .eauth
  | .found cid => .found cid
  | .copyRenew cid => .negotiateCopy cid
  | .reuse cid => .negotiateReuse cid
  | .prinMismatch => .negotiateNew
  | .endOfList =>
    if nfs_root_steals_ctx ∧ req.principal = none ∧ req.uid = 0 then
      match ctxs.find? (fun c => ¬(c.flags.inval ∨ c.flags.destroy)) with
      | some c => .rootSteal c.cid
      | none => .negotiateNew
    else .negotiateNew

/-! ## Negotiation loop (nfs_gss_clnt_ctx_init 1300-1478)

The loop alternates gssd upcalls with NFS null calls to the server.  Both are
external interactions; their outcomes are consumed from a list of events.
The `retrycnt >= nmp->nm_etype.count -> EACCES` guard at the top of
nfs_gss_clnt_gssd_upcall (line 1861-1888) is part of the model, applied
before an upcall event is consumed. -/

/-- One external interaction during negotiation: a gssd upcall outcome
(transport error or the major status stored into gss_clnt_major) or a
callserver outcome (RPC error or the server's major status). -/
inductive InitEv where
  | up : Option Nat → Nat → InitEv
  | srv : Option Nat → Nat → InitEv
  deriving Repr, DecidableEq

/-- Where the negotiation loop is about to interact. -/
inductive InitPhase where
  | atUpcall : InitPhase
  | atServer : InitPhase
  deriving Repr, DecidableEq

/-- The loop-local state of nfs_gss_clnt_ctx_init: retry count, current
RPCSEC_GSS procedure, and the client_complete/server_complete flags. -/
structure InitLoopSt where
  phase : InitPhase
  retrycnt : Nat
  proc : Nat
  client_complete : Bool
  server_complete : Bool
  deriving Repr, DecidableEq

/-- Initial loop state: proc = RPCSEC_GSS_INIT, nothing complete. -/
def initLoopSt : InitLoopSt :=
  ⟨.atUpcall, 0, RPCSEC_GSS_INIT, false, false⟩

/-- How the negotiation loop ends: the both-sides-complete break, a failure
carried to the nfsmout label, or an event-shape mismatch (the environment
trace ran out or answered at the wrong interaction point). -/
inductive InitRes where
  | ok : InitLoopSt → InitRes
  | fail : Nat → InitLoopSt → InitRes
  | stuck : InitRes
  deriving Repr, DecidableEq

/-- What one external interaction does to the negotiation loop: either the
loop terminates with a result, or it continues with an updated state. -/
inductive InitStepOut where
  | res : InitRes → InitStepOut
  | cont : InitLoopSt → InitStepOut
  deriving Repr, DecidableEq

/-- One interaction of the for(;;) loop of nfs_gss_clnt_ctx_init.  At an
upcall, a transport error fails the loop; a client GSS_S_COMPLETE sets
client_complete and breaks if the server already completed; a client status
other than COMPLETE/CONTINUE_NEEDED bumps retrycnt and restarts at the next
upcall (the GSSD_RESTART handling resets proc to RPCSEC_GSS_INIT); otherwise
the token goes to the server.  At the server, an ENEEDAUTH during
INIT/CONTINUE_INIT also bumps retrycnt and restarts, another RPC error fails
the loop, GSS_S_COMPLETE sets server_complete (breaking if the client
completed), GSS_S_CONTINUE_NEEDED moves proc to RPCSEC_GSS_CONTINUE_INIT,
and any other status bumps retrycnt. -/
def nfs_gss_clnt_ctx_init_step (st : InitLoopSt) (ev : InitEv) : InitStepOut :=
  match st.phase, ev with
  | .atUpcall, .up (some e) _ => .res (.fail e st)
  | .atUpcall, .up none maj =>
    if maj = GSS_S_COMPLETE then
      if st.server_complete then .res (.ok { st with client_complete := true })
      else .cont { st with client_complete := true, phase := .atServer }
    else if maj = GSS_S_CONTINUE_NEEDED then .cont { st with phase := .atServer }
    else .cont { st with retrycnt := st.retrycnt + 1, proc := RPCSEC_GSS_INIT }
  | .atUpcall, .srv _ _ => .res .stuck
  | .atServer, .up _ _ => .res .stuck
  | .atServer, .srv (some e) _ =>
    if e = ENEEDAUTH ∧ (st.proc = RPCSEC_GSS_INIT ∨ st.proc = RPCSEC_GSS_CONTINUE_INIT) then
      .cont { st with retrycnt := st.retrycnt + 1, proc := RPCSEC_GSS_INIT,
                      phase := .atUpcall }
    else .res (.fail e st)
  | .atServer, .srv none maj =>
    if maj = GSS_S_COMPLETE then
      if st.client_complete then .res (.ok { st with server_complete := true })
      else .cont { st with server_complete := true, phase := .atUpcall }
    else if maj = GSS_S_CONTINUE_NEEDED then
      .cont { st with proc := RPCSEC_GSS_CONTINUE_INIT, phase := .atUpcall }
    else
      .cont { st with retrycnt := st.retrycnt + 1, proc := RPCSEC_GSS_INIT,
                      phase := .atUpcall }

/-- The for(;;) loop of nfs_gss_clnt_ctx_init driven by an event trace.
`cnt` is nmp->nm_etype.count: the EACCES guard at the top of
nfs_gss_clnt_gssd_upcall fires, before an upcall event is consumed, once
retrycnt reaches cnt. -/
def nfs_gss_clnt_ctx_init_run (cnt : Nat) : List InitEv → InitLoopSt → InitRes
  | [], st =>
    if st.phase = InitPhase.atUpcall ∧ cnt ≤ st.retrycnt then .fail EACCES st
    else .stuck
  | ev :: rest, st =>
    if st.phase = InitPhase.atUpcall ∧ cnt ≤ st.retrycnt then .fail EACCES st
    else
      match nfs_gss_clnt_ctx_init_step st ev with
      | .res r => r
      | .cont st2 => nfs_gss_clnt_ctx_init_run cnt rest st2

/-- Observable outcome of nfs_gss_clnt_ctx_init: its return value and the
context's COMPLETE/INVAL flags and procedure when it returns. -/
structure InitOutcome where
  error : Nat
  complete : Bool
  inval : Bool
  proc : Nat
  deriving Repr, DecidableEq

/-- nfs_gss_clnt_ctx_init after the loop: on the both-complete break, set
GSS_CTX_COMPLETE, move to RPCSEC_GSS_DATA, and verify the saved verifier as
a MIC over the negotiated sequence window with the opaque capability
`verify_mic`; a verification failure yields NFSERR_EAUTH and (at nfsmout)
GSS_CTX_INVAL.  Loop failures reach nfsmout directly: ENEEDAUTH is passed
through for the outer retry loop, any other error marks the context
GSS_CTX_INVAL. -/
def nfs_gss_clnt_ctx_init (cnt : Nat) (evs : List InitEv)
    (verify_mic : Nat → List Nat → Bool) (seqwin : Nat) (verf : List Nat) :
    Option InitOutcome :=
  match nfs_gss_clnt_ctx_init_run cnt evs initLoopSt with
  | .stuck => none
  | .fail e st =>
    if e = ENEEDAUTH then some ⟨e, false, false, st.proc⟩
    else some ⟨e, false, true, st.proc⟩
  | .ok _ =>
    if verify_mic seqwin verf then some ⟨0, true, false, RPCSEC_GSS_DATA⟩
    else some ⟨NFSERR_EAUTH, true, true, RPCSEC_GSS_DATA⟩

/-- Derived lifecycle state of a context from its COMPLETE/INVAL flags: a
context carrying GSS_CTX_INVAL is INVALID whatever else is set. -/
inductive CtxLifeState where
  | negotiating : CtxLifeState
  | complete : CtxLifeState
  | invalid : CtxLifeState
  deriving Repr, DecidableEq

/-- Map flag bits to the lifecycle state. -/
def ctxLifeState (complete inval : Bool) : CtxLifeState :=
  if inval then .invalid else if complete then .complete else .negotiating

/-! ## Encryption-type preferences of the upcall (nfs_gss_clnt_gssd_upcall 1888-1920) -/

/-- nm_etype of the mount: the configured encryption types in preference
order and the index of a previously selected one (nm_etype.count is the
length of the list; selected >= count means none selected yet). -/
structure NfsEtype where
  selected : Nat
  etypes : List Nat
  deriving Repr, DecidableEq

/-- The reordering step of nfs_gss_clnt_gssd_upcall: when an etype has been
selected, move it to the front of the preference list. -/
def etype_reorder (e : NfsEtype) : List Nat :=
  if e.selected < e.etypes.length then
    e.etypes.getD e.selected 0 :: (e.etypes.take e.selected ++ e.etypes.drop (e.selected + 1))
  else e.etypes

/-- The removal step of nfs_gss_clnt_gssd_upcall: drop the etypes already
tried in earlier retries, so the list sent to gssd on retry r starts at the
(r+1)-st preference. -/
def nfs_gss_upcall_etypes (e : NfsEtype) (retrycnt : Nat) : List Nat :=
  (etype_reorder e).drop retrycnt

/-! ## Outer retry loop (nfs_gss_clnt_ctx_init_retry 1484-1552) -/

/-- Result of the outer retry loop: `done error delays` when the loop
returned (delays lists the seconds slept before each retry, in order), or
`pending delays` when the supplied trace of nfs_gss_clnt_ctx_init outcomes
ran out while the loop was still retrying. -/
inductive RetryRes where
  | done : Nat → List Nat → RetryRes
  | pending : List Nat → RetryRes
  deriving Repr, DecidableEq

/-- The doubling-with-cap update of the retry delay:
`timeo *= 2; if (timeo > 60) timeo = 60;`. -/
def nfs_gss_retry_timeo_next (t : Nat) : Nat :=
  if t * 2 > 60 then 60 else t * 2

/-- nfs_gss_clnt_ctx_init_retry: while nfs_gss_clnt_ctx_init returns
ENEEDAUTH, sleep `timeo` seconds, count the retry, give up with ETIMEDOUT on
a soft mount (NMFLAG SOFT or R_SOFT) once retries exceed nm_retry, then
double the delay capping at 60 seconds.  `errs` is the trace of
nfs_gss_clnt_ctx_init return values; interrupts (nfs_sigintr) are not taken
in this model. -/
def nfs_gss_clnt_ctx_init_retry (soft : Bool) (nm_retry : Nat) :
    List Nat → Nat → Nat → RetryRes
  | [], _, _ => .pending []
  | e :: rest, retries, timeo =>
    if e ≠ ENEEDAUTH then .done e []
    else
      let retries2 := retries + 1
      if soft ∧ nm_retry < retries2 then .done ETIMEDOUT [timeo]
      else
        match nfs_gss_clnt_ctx_init_retry soft nm_retry rest retries2
            (nfs_gss_retry_timeo_next timeo) with
        | .done err ds => .done err (timeo :: ds)
        | .pending ds => .pending (timeo :: ds)

/-! ## Reply verifier checking (nfs_gss_clnt_verf_get 988-1235) -/

/-- How nfs_gss_clnt_verf_get disposes of a reply verifier before any
GSS work: an error return, acceptance of a null verifier during setup,
stashing the setup verifier for later validation, or proceeding to MIC
verification of a data-phase reply. -/
inductive VerfOut where
  | err : Nat → VerfOut
  | nullVerf : VerfOut
  | stashed : VerfOut
  | dataPath : VerfOut
  deriving Repr, DecidableEq

/-- The verifier-type and length screening of nfs_gss_clnt_verf_get: a
non-RPCSEC_GSS verifier must be a null verifier on an incomplete context; an
RPCSEC_GSS verifier longer than KRB5_MAX_MIC_SIZE is rejected with EBADRPC
both on the stash path (context not yet COMPLETE) and on the data path
(context COMPLETE), before any MIC work. -/
def nfs_gss_clnt_verf_get (cp : Option ClntCtx) (verftype verflen : Nat) : VerfOut :=
  match cp with
  | none => .err NFSERR_EAUTH
  | some cp =>
    if verftype ≠ RPCSEC_GSS then
      if verftype ≠ RPCAUTH_NULL then .err NFSERR_EAUTH
      else if cp.flags.complete then .err NFSERR_EAUTH
      else .nullVerf
    else if ¬cp.flags.complete then
      if verflen > KRB5_MAX_MIC_SIZE then .err EBADRPC else .stashed
    else if verflen > KRB5_MAX_MIC_SIZE then .err EBADRPC
    else .dataPath

/-! ## Statement-level definitions for the claims -/

/-- A COMPLETE context with a fresh (all-clear) window bitmap of size `win`
and sequence counter seeded at `s0` (nfs_gss_clnt_ctx_init seeds the counter
at a random value offset by the window size, so `win ≤ s0`). -/
def freshWinCtx (win s0 : Nat) : ClntCtx :=
  ⟨0, 1, { GssFlags.clear with complete := true }, s0, win,
   List.replicate win false, 0, 0, none, true⟩

/-- Window-exhaustion scenario of claim C1: after `win` acquisitions the next
acquire finds the oldest slot's bit set and blocks; releasing the oldest
outstanding sequence number (s0+1) wakes the waiter and clears the blocking
bit; the resumed waiter gets the strictly larger number s0+win+1, sets its
bit, and the window is immediately full again (so only one waiter gets
through). -/
def SeqWindowBlockUnblock (win s0 : Nat) : Prop :=
  (cred_put_seq_acquireN (freshWinCtx win s0) win).seqnum = s0 + win
  ∧ cred_put_seq_blocked (cred_put_seq_acquireN (freshWinCtx win s0) win) = true
  ∧ (nfs_gss_clnt_rpcdone
      { cred_put_seq_acquireN (freshWinCtx win s0) win with flags.needseq := true }
      [s0 + 1]).2.2 = true
  ∧ cred_put_seq_blocked (nfs_gss_clnt_rpcdone
      { cred_put_seq_acquireN (freshWinCtx win s0) win with flags.needseq := true }
      [s0 + 1]).1 = false
  ∧ (cred_put_seq_acquire (nfs_gss_clnt_rpcdone
      { cred_put_seq_acquireN (freshWinCtx win s0) win with flags.needseq := true }
      [s0 + 1]).1).2 = s0 + win + 1
  ∧ (cred_put_seq_acquireN (freshWinCtx win s0) win).seqnum
      < (cred_put_seq_acquire (nfs_gss_clnt_rpcdone
      { cred_put_seq_acquireN (freshWinCtx win s0) win with flags.needseq := true }
      [s0 + 1]).1).2
  ∧ win_getbit (cred_put_seq_acquire (nfs_gss_clnt_rpcdone
      { cred_put_seq_acquireN (freshWinCtx win s0) win with flags.needseq := true }
      [s0 + 1]).1).1.seqbits ((s0 + win + 1) % win) = true
  ∧ cred_put_seq_blocked (cred_put_seq_acquire (nfs_gss_clnt_rpcdone
      { cred_put_seq_acquireN (freshWinCtx win s0) win with flags.needseq := true }
      [s0 + 1]).1).1 = true

/-- Release semantics of claim C2 for a completed request whose most recent
sequence number is `s`: the bit at `s mod seqwin` is cleared exactly when `s`
is still inside the live window, the bitmap is untouched otherwise, and in
either case a waiter blocked on window space (GSS_NEEDSEQ) is woken. -/
def RpcdoneRelease (cp : ClntCtx) (s : Nat) (rest : List Nat) : Prop :=
  (cp.seqnum - cp.seqwin < s →
    (nfs_gss_clnt_rpcdone cp (s :: rest)).1.seqbits
      = win_resetbit cp.seqbits (s % cp.seqwin))
  ∧ (s ≤ cp.seqnum - cp.seqwin →
    (nfs_gss_clnt_rpcdone cp (s :: rest)).1.seqbits = cp.seqbits)
  ∧ (nfs_gss_clnt_rpcdone cp (s :: rest)).2.2 = cp.flags.needseq
  ∧ (nfs_gss_clnt_rpcdone cp (s :: rest)).1.flags.needseq = false

/-- Round trip of claim C3 for INTEGRITY protection: restore of a created
rpc_gss_integ_data yields the original body bytes. -/
def IntegRoundTrip (mic : List Nat → List Nat) (body : Mchain) (seqnum : Nat) : Prop :=
  ∃ r, rpc_gss_integ_data_restore (rpc_gss_integ_data_create mic body seqnum).1
        (rpc_gss_integ_data_create mic body seqnum).2 = .ok r
      ∧ mchain_flatten r = mchain_flatten body

/-- Round trip of claim C3 for PRIVACY protection: restore of a created
rpc_gss_priv_data yields the original body bytes. -/
def PrivRoundTrip (wrap unwrap : List Nat → List Nat) (body : Mchain) (seqnum : Nat) : Prop :=
  ∃ r, rpc_gss_priv_data_restore unwrap (rpc_gss_priv_data_create wrap body seqnum).1
        (rpc_gss_priv_data_create wrap body seqnum).2 = .ok r
      ∧ mchain_flatten r = mchain_flatten body

/-- Completion conditions of claim C4 for a finished nfs_gss_clnt_ctx_init
with outcome `out`: the context ends in the COMPLETE lifecycle state only if
the sequence-window verifier check succeeded and both the gssd and the server
reported GSS_S_COMPLETE during the loop (and the call returned 0); and when
the loop reached its both-complete break but the verifier check fails, the
caller gets NFSERR_EAUTH and the context ends INVALID. -/
def InitCompleteConditions (cnt : Nat) (evs : List InitEv)
    (vm : Nat → List Nat → Bool) (w : Nat) (verf : List Nat)
    (out : InitOutcome) : Prop :=
  (ctxLifeState out.complete out.inval = CtxLifeState.complete →
    vm w verf = true ∧ out.error = 0
    ∧ InitEv.up none GSS_S_COMPLETE ∈ evs ∧ InitEv.srv none GSS_S_COMPLETE ∈ evs)
  ∧ (∀ st, nfs_gss_clnt_ctx_init_run cnt evs initLoopSt = .ok st → vm w verf = false →
      out.error = NFSERR_EAUTH ∧ ctxLifeState out.complete out.inval = CtxLifeState.invalid)

/-- One failed negotiation round: either the gssd upcall itself comes back
with a non-terminal, non-continuable major status (the client-side retry
branch, nfs_gss.c:1347-1360), or the upcall returns GSS_S_CONTINUE_NEEDED,
the token goes to the server, and the server's reply carries the
non-terminal, non-continuable status (the "Server didn't like us" branch,
nfs_gss.c:1392-1399). -/
inductive FailRound where
  | clnt : Nat → FailRound
  | srvr : Nat → FailRound
  deriving Repr, DecidableEq

/-- The event trace one failed round feeds the negotiation loop. -/
def FailRound.events : FailRound → List InitEv
  | .clnt b => [InitEv.up none b]
  | .srvr b => [InitEv.up none GSS_S_CONTINUE_NEEDED, InitEv.srv none b]

/-- The round's major status is non-terminal and non-continuable. -/
def FailRound.nonTerminal : FailRound → Bool
  | .clnt b => b != GSS_S_COMPLETE && b != GSS_S_CONTINUE_NEEDED
  | .srvr b => b != GSS_S_COMPLETE && b != GSS_S_CONTINUE_NEEDED

/-- The event trace of a whole sequence of failed rounds. -/
def failTrace (rs : List FailRound) : List InitEv :=
  (rs.map FailRound.events).flatten

/-- Exhaustion behaviour of claim C5: when every negotiation round ends with
a non-terminal, non-continuable major status from either side (client upcall
or server reply), nfs_gss_clnt_ctx_init fails with EACCES (the upcall's
etype-exhaustion return) and the context ends INVALID; the etype preference
list passed to gssd on retry r starts at the (r+1)-st reordered preference;
and a caller running the outer retry loop over that EACCES receives EACCES
(not a further retry). -/
def EtypeExhaustionFail (e : NfsEtype) (rs : List FailRound) (r : Nat)
    (vm : Nat → List Nat → Bool) (w : Nat) (verf : List Nat)
    (soft : Bool) (nm_retry : Nat) (more : List Nat) : Prop :=
  nfs_gss_clnt_ctx_init e.etypes.length (failTrace rs) vm w verf
    = some ⟨EACCES, false, true, RPCSEC_GSS_INIT⟩
  ∧ ctxLifeState false true = CtxLifeState.invalid
  ∧ (nfs_gss_upcall_etypes e r).head? = (etype_reorder e)[r]?
  ∧ nfs_gss_clnt_ctx_init_retry soft nm_retry (EACCES :: more) 0 NFS_TRYLATERDEL
    = RetryRes.done EACCES []

/-- Fast-fail condition of claim C6: the lookup ends in the EAUTH fast path
(no gssd upcall, no context creation). -/
def FindFastFail (req : FindReq) (now : Nat) (rs : Bool) (ctxs : List ClntCtx) : Prop :=
  nfs_gss_clnt_ctx_find_principal req now rs ctxs = FindOutcome.eauth

/-- The failing input of claim C7: an aged (nctime = 1, now = 10),
unreferenced, INVAL, non-STICKY negative-cache entry on a mount whose
nm_ncentries (11) exceeds GSS_MAX_NEG_CACHE_ENTRIES (10). -/
def c7AgedCtx : ClntCtx :=
  ⟨1, 0, { GssFlags.clear with inval := true }, 0, 0, [], 1, 0, none, false⟩

/-- Reference-count contract of claim C8 for a context with a non-negative
count: nfs_gss_clnt_ctx_ref increments; an unref at count zero is the
detected "Over release" panic, never a silent state change; an unref that
leaves the context alive leaves it with the decremented, still non-negative
count. -/
def RefcntContract (now : Nat) (mnt : MountState) (cp : ClntCtx) : Prop :=
  (nfs_gss_clnt_ctx_ref cp).refcnt = cp.refcnt + 1
  ∧ (cp.refcnt = 0 → nfs_gss_clnt_ctx_unref now mnt cp = UnrefRes.panic)
  ∧ (0 < cp.refcnt → nfs_gss_clnt_ctx_unref now mnt cp ≠ UnrefRes.panic)
  ∧ (∀ mnt2 cp2, nfs_gss_clnt_ctx_unref now mnt cp = UnrefRes.ok mnt2 (some cp2) →
      cp2.refcnt = cp.refcnt - 1 ∧ 0 ≤ cp2.refcnt)

/-- Delay trace of an outer-retry run. -/
def retryDelays (r : RetryRes) : List Nat :=
  match r with
  | .done _ ds => ds
  | .pending ds => ds

/-- Retry policy of claim C9 (as amended) over a trace of `n` transient
(ENEEDAUTH) setup failures: the first delay is NFS_TRYLATERDEL and each
subsequent delay is the previous one doubled and capped at 60 seconds; a
soft mount gives up with ETIMEDOUT after nm_retry+1 slept delays once the
retry count exceeds nm_retry; a hard mount never times out on its own (it is
still retrying when the trace runs out). -/
def RetryBackoffPolicy (soft : Bool) (nm_retry n : Nat) : Prop :=
  ((retryDelays (nfs_gss_clnt_ctx_init_retry soft nm_retry
      (List.replicate n ENEEDAUTH) 0 NFS_TRYLATERDEL)).head? = some NFS_TRYLATERDEL
    ∨ retryDelays (nfs_gss_clnt_ctx_init_retry soft nm_retry
      (List.replicate n ENEEDAUTH) 0 NFS_TRYLATERDEL) = [])
  ∧ (∀ k d d2,
      (retryDelays (nfs_gss_clnt_ctx_init_retry soft nm_retry
        (List.replicate n ENEEDAUTH) 0 NFS_TRYLATERDEL))[k]? = some d →
      (retryDelays (nfs_gss_clnt_ctx_init_retry soft nm_retry
        (List.replicate n ENEEDAUTH) 0 NFS_TRYLATERDEL))[k + 1]? = some d2 →
      d2 = nfs_gss_retry_timeo_next d)
  ∧ (soft = true → nm_retry < n →
      ∃ ds, nfs_gss_clnt_ctx_init_retry soft nm_retry
          (List.replicate n ENEEDAUTH) 0 NFS_TRYLATERDEL = RetryRes.done ETIMEDOUT ds
        ∧ ds.length = nm_retry + 1)
  ∧ (soft = false →
      ∃ ds, nfs_gss_clnt_ctx_init_retry soft nm_retry
          (List.replicate n ENEEDAUTH) 0 NFS_TRYLATERDEL = RetryRes.pending ds
        ∧ ds.length = n)

/-- Oversized-verifier rejection of claim C10: an RPCSEC_GSS reply verifier
longer than KRB5_MAX_MIC_SIZE is rejected with EBADRPC before any stash or
MIC verification, on a context in any completion state. -/
def OversizedVerfRejected (cp : ClntCtx) (verflen : Nat) : Prop :=
  nfs_gss_clnt_verf_get (some cp) RPCSEC_GSS verflen = VerfOut.err EBADRPC

/-! ## Helper lemmas -/

theorem sub32_eq_sub {a b : Nat} (hba : b ≤ a) (ha : a < UINT32_MOD) :
    sub32 a b = a - b := by
  unfold sub32 UINT32_MOD
  unfold UINT32_MOD at ha
  omega

theorem add32_eq_add {a b : Nat} (h : a + b < UINT32_MOD) : add32 a b = a + b := by
  unfold add32 UINT32_MOD
  unfold UINT32_MOD at h
  omega

theorem getD_set_self {l : List Bool} {i : Nat} {v : Bool} (h : i < l.length) :
    (l.set i v).getD i false = v := by
  induction l generalizing i with
  | nil => simp at h
  | cons a t ih =>
    cases i with
    | zero => simp [List.set, List.getD]
    | succ j =>
      simp only [List.set, List.getD] at *
      exact ih (by simpa using h)

theorem getD_set_ne {l : List Bool} {i j : Nat} {v : Bool} (h : i ≠ j) :
    (l.set i v).getD j false = l.getD j false := by
  induction l generalizing i j with
  | nil => simp [List.set]
  | cons a t ih =>
    cases i with
    | zero =>
      cases j with
      | zero => exact absurd rfl h
      | succ j2 => simp [List.set, List.getD]
    | succ i2 =>
      cases j with
      | zero => simp [List.set, List.getD]
      | succ j2 =>
        simp only [List.set, List.getD]
        exact ih (fun hc => h (by rw [hc]))

/-! ## Claim C10 -/

/-- C10: an RPCSEC_GSS reply verifier whose length exceeds KRB5_MAX_MIC_SIZE
(128) makes nfs_gss_clnt_verf_get return EBADRPC without stashing it and
without attempting MIC verification, both before the context is COMPLETE
(the stash path) and after (the data path): the context `cp` is arbitrary,
covering both flag states. -/
theorem verf_get_rejects_oversized_mic (cp : ClntCtx) (verflen : Nat)
    (h : KRB5_MAX_MIC_SIZE < verflen) :
    OversizedVerfRejected cp verflen := by
  by_cases hcpl : cp.flags.complete <;>
    simp [OversizedVerfRejected, nfs_gss_clnt_verf_get, hcpl, h]

/-- Witness for C10: a 129-byte verifier is rejected on an incomplete and on
a complete context. -/
theorem verf_get_rejects_oversized_mic_witness :
    OversizedVerfRejected (freshWinCtx 4 1000) 129
    ∧ OversizedVerfRejected ⟨0, 0, GssFlags.clear, 0, 0, [], 0, 0, none, false⟩ 129 :=
  ⟨verf_get_rejects_oversized_mic (freshWinCtx 4 1000) 129 (by decide),
   verf_get_rejects_oversized_mic ⟨0, 0, GssFlags.clear, 0, 0, [], 0, 0, none, false⟩ 129
     (by decide)⟩

/-! ## Claim C8 -/

/-- C8: for any context with a non-negative reference count, ref increments
the count under the context lock, an unref at count zero is detected as the
fatal "Over release of gss context!" panic rather than a silent state
change, an unref at a positive count never panics, and a surviving context
carries the decremented, still non-negative count. -/
theorem refcnt_never_negative (now : Nat) (mnt : MountState) (cp : ClntCtx)
    (hnn : 0 ≤ cp.refcnt) : RefcntContract now mnt cp := by
  unfold RefcntContract
  refine ⟨rfl, ?_, ?_, ?_⟩
  · intro h0
    unfold nfs_gss_clnt_ctx_unref
    rw [if_pos (by omega)]
  · intro hpos
    unfold nfs_gss_clnt_ctx_unref
    rw [if_neg (by omega)]
    dsimp only
    repeat' split
    all_goals simp
  · intro mnt2 cp2
    unfold nfs_gss_clnt_ctx_unref
    by_cases hr : cp.refcnt - 1 < 0
    · rw [if_pos hr]
      intro hc
      cases hc
    · rw [if_neg hr]
      dsimp only
      intro hok
      split at hok
      · cases hok
      · split at hok <;>
          · cases hok
            refine ⟨rfl, ?_⟩
            show (0 : Int) ≤ cp.refcnt - 1
            omega

/-- Witness for C8 at a concrete context with refcnt 2 (and the panic case
at refcnt 0 via a second application). -/
theorem refcnt_never_negative_witness :
    RefcntContract 5 ⟨[freshWinCtx 4 1000], 0⟩ (freshWinCtx 4 1000)
    ∧ RefcntContract 5 ⟨[c7AgedCtx], 1⟩ c7AgedCtx :=
  ⟨refcnt_never_negative 5 ⟨[freshWinCtx 4 1000], 0⟩ (freshWinCtx 4 1000) (by decide),
   refcnt_never_negative 5 ⟨[c7AgedCtx], 1⟩ c7AgedCtx (by decide)⟩

/-! ## Claim C7 -/

/-- Reap never removes a STICKY, still-valid, referenced, or
younger-than-GSS_NEG_CACHE_TO entry: every context of the input list that is
protected by one of those conditions is still in the output list. -/
theorem reap_keeps_protected (now : Nat) (l : List ClntCtx) (n : Int) (c : ClntCtx)
    (hc : c ∈ l)
    (hp : c.flags.sticky = true ∨ c.flags.inval = false ∨ c.refcnt ≠ 0
      ∨ now ≤ c.nctime + GSS_NEG_CACHE_TO) :
    c ∈ (nfs_gss_clnt_ctx_neg_cache_reap now l n).1 := by
  induction l generalizing n with
  | nil => cases hc
  | cons cp rest ih =>
    unfold nfs_gss_clnt_ctx_neg_cache_reap
    rcases List.mem_cons.mp hc with hceq | hcrest
    · subst hceq
      split
      · exact List.mem_cons_self _ _
      · split
        · exact List.mem_cons_self _ _
        · split
          · exact List.mem_cons_self _ _
          · split
            · rename_i hns hle hyoung href
              exfalso
              push_neg at hns
              rcases hp with h | h | h | h
              · exact absurd h (by simpa using hns.1)
              · exact absurd h (by simp [hns.2])
              · exact h href
              · exact hyoung h
            · exact List.mem_cons_self _ _
    · split
      · exact List.mem_cons_of_mem _ (ih _ hcrest)
      · split
        · exact List.mem_cons_of_mem _ hcrest
        · split
          · exact List.mem_cons_of_mem _ (ih _ hcrest)
          · split
            · exact ih _ hcrest
            · exact List.mem_cons_of_mem _ (ih _ hcrest)

/-- C7 (code bug): at the failing input — a single aged (now = 10,
nctime = 1), unreferenced, INVAL, non-STICKY entry on a mount whose
nm_ncentries = 11 exceeds the ceiling of 10 — the reap removes the entry but
executes `nmp->nm_ncentries++`, leaving the count at 12: strictly above the
ceiling and above its starting value, where the function's own "Keep up to
GSS_MAX_NEG_CACHE_ENTRIES" contract (and the matching `nm_ncentries--` in
nfs_gss_clnt_ctx_unref's destroy path) require it to drop. -/
theorem reap_increments_ncentries_bug :
    nfs_gss_clnt_ctx_neg_cache_reap 10 [c7AgedCtx] 11 = ([], 12, 1)
    ∧ (GSS_MAX_NEG_CACHE_ENTRIES : Int) < 12 := by
  constructor
  · rfl
  · decide

/-! ## Claim C6 -/

/-- C6: when the first audit-session match of the scan is a non-DESTROY
context whose principal does not conflict with the request, is marked INVAL,
and whose negative-cache timestamp is zero or still within the grace period,
the lookup fails fast with the EAUTH outcome: no gssd upcall and no new
context. -/
theorem find_principal_neg_cache_fast_fail (req : FindReq) (now : Nat) (rs : Bool)
    (pre post : List ClntCtx) (cp : ClntCtx)
    (hskip : ∀ c ∈ pre, c.flags.destroy = true ∨ c.asid ≠ req.asid)
    (hnd : cp.flags.destroy = false) (hasid : cp.asid = req.asid)
    (hprin : req.principal = none ∨ cp.principal = req.principal)
    (hinval : cp.flags.inval = true)
    (hgrace : cp.nctime = 0 ∨ now ≤ cp.nctime + GSS_NEG_CACHE_TO) :
    FindFastFail req now rs (pre ++ cp :: post) := by
  unfold FindFastFail nfs_gss_clnt_ctx_find_principal
  have hmis : (match req.principal with
      | some pn => cp.principal != some pn
      | none => false) = false := by
    rcases hprin with h | h
    · simp [h]
    · cases hp : req.principal with
      | none => simp
      | some pn => simp [h, hp]
  have hgr : now ≤ cp.nctime + GSS_NEG_CACHE_TO ∨ cp.nctime = 0 := by tauto
  have hloop : nfs_gss_clnt_ctx_find_loop req now (pre ++ cp :: post) = .eauth := by
    induction pre with
    | nil =>
      simp only [List.nil_append, nfs_gss_clnt_ctx_find_loop]
      simp [hnd, hasid, hmis, hinval, hgr]
    | cons c t ih =>
      simp only [List.cons_append, nfs_gss_clnt_ctx_find_loop]
      have ihr := ih (fun x hx => hskip x (List.mem_cons_of_mem _ hx))
      rcases hskip c (List.mem_cons_self _ _) with hdes | hasne
      · rw [if_pos hdes]
        exact ihr
      · by_cases hdes : c.flags.destroy = true
        · rw [if_pos hdes]
          exact ihr
        · rw [if_neg hdes, if_neg hasne]
          exact ihr
  rw [hloop]

/-- Witness for C6: an INVAL context inside its grace period
(nctime = 100, now = 102) behind a non-matching entry. -/
theorem find_principal_neg_cache_fast_fail_witness :
    FindFastFail ⟨55, 501, none⟩ 102 false
      [⟨3, 0, GssFlags.clear, 0, 0, [], 0, 9, none, false⟩,
       ⟨11, 1, { GssFlags.clear with inval := true }, 0, 0, [], 100, 55, none, false⟩] :=
  find_principal_neg_cache_fast_fail ⟨55, 501, none⟩ 102 false
    [⟨3, 0, GssFlags.clear, 0, 0, [], 0, 9, none, false⟩] []
    ⟨11, 1, { GssFlags.clear with inval := true }, 0, 0, [], 100, 55, none, false⟩
    (by decide) (by decide) (by decide) (by decide) (by decide) (by decide)

/-! ## Claim C2 -/

/-- C2: completing a request releases its slot by clearing the bit at
`seq mod window` exactly when the sequence number is still inside the live
window (`seq > seqnum - seqwin`); a stale release leaves the bitmap
untouched; and in either case a waiter blocked on window space (GSS_NEEDSEQ)
is woken.  The hypotheses state the seeding invariant of
nfs_gss_clnt_ctx_init (`seqwin ≤ seqnum`, so the uint32 subtraction does not
wrap) and that the context is COMPLETE. -/
theorem rpcdone_clears_only_live_window (cp : ClntCtx) (s : Nat) (rest : List Nat)
    (hc : cp.flags.complete = true) (hw : cp.seqwin ≤ cp.seqnum)
    (h32 : cp.seqnum < UINT32_MOD) : RpcdoneRelease cp s rest := by
  have hs32 : sub32 cp.seqnum cp.seqwin = cp.seqnum - cp.seqwin := sub32_eq_sub hw h32
  unfold RpcdoneRelease
  by_cases hlive : sub32 cp.seqnum cp.seqwin < s <;>
    by_cases hns : cp.flags.needseq = true <;>
      refine ⟨fun h => ?_, fun h => ?_, ?_, ?_⟩ <;>
        first
          | (exfalso; rw [hs32] at hlive; omega)
          | simp [nfs_gss_clnt_rpcdone, hc, hlive, hns]

/-- Witness for C2: window 4 at seqnum 1004 on a full bitmap; releasing 1001
(live) clears slot 1, releasing 1000 (stale) changes nothing, and the waiter
is woken in both runs. -/
theorem rpcdone_clears_only_live_window_witness :
    RpcdoneRelease ⟨0, 1, ⟨true, false, false, false, false, false, true⟩, 1004, 4, [true, true, true, true], 0, 0, none, true⟩ 1001 []
    ∧ RpcdoneRelease ⟨0, 1, ⟨true, false, false, false, false, false, true⟩, 1004, 4, [true, true, true, true], 0, 0, none, true⟩ 1000 [] :=
  ⟨rpcdone_clears_only_live_window _ 1001 [] (by decide) (by decide) (by decide),
   rpcdone_clears_only_live_window _ 1000 [] (by decide) (by decide) (by decide)⟩

/-! ## Claim C9 -/

/-- In the retrying branch the slept delay is recorded in front of the
delays of the continuation, whatever the continuation returns. -/
theorem retry_delays_cons (soft : Bool) (nm_retry : Nat) (rest : List Nat)
    (retries timeo : Nat) (hstop : ¬(soft = true ∧ nm_retry < retries + 1)) :
    retryDelays (nfs_gss_clnt_ctx_init_retry soft nm_retry (ENEEDAUTH :: rest) retries timeo)
      = timeo :: retryDelays (nfs_gss_clnt_ctx_init_retry soft nm_retry rest (retries + 1)
          (nfs_gss_retry_timeo_next timeo)) := by
  simp only [nfs_gss_clnt_ctx_init_retry]
  rw [if_neg (by simp)]
  rw [if_neg (by simpa using hstop)]
  cases h : nfs_gss_clnt_ctx_init_retry soft nm_retry rest (retries + 1)
      (nfs_gss_retry_timeo_next timeo) <;> simp [retryDelays]

/-- The delay trace always starts with the current timeout (or is empty),
and each recorded delay is the doubled-and-capped previous one. -/
theorem retry_delays_spec (soft : Bool) (nm_retry : Nat) :
    ∀ (errs : List Nat) (retries timeo : Nat),
    ((retryDelays (nfs_gss_clnt_ctx_init_retry soft nm_retry errs retries timeo)).head?
        = some timeo
      ∨ retryDelays (nfs_gss_clnt_ctx_init_retry soft nm_retry errs retries timeo) = [])
    ∧ ∀ k d d2,
      (retryDelays (nfs_gss_clnt_ctx_init_retry soft nm_retry errs retries timeo))[k]?
          = some d →
      (retryDelays (nfs_gss_clnt_ctx_init_retry soft nm_retry errs retries timeo))[k + 1]?
          = some d2 →
      d2 = nfs_gss_retry_timeo_next d := by
  intro errs
  induction errs with
  | nil =>
    intro retries timeo
    constructor
    · right
      rfl
    · intro k d d2 hd hd2
      simp [nfs_gss_clnt_ctx_init_retry, retryDelays] at hd
  | cons e rest ih =>
    intro retries timeo
    by_cases he : e = ENEEDAUTH
    case neg =>
      have hrun : nfs_gss_clnt_ctx_init_retry soft nm_retry (e :: rest) retries timeo
          = RetryRes.done e [] := by
        simp only [nfs_gss_clnt_ctx_init_retry]
        rw [if_pos he]
      rw [hrun]
      constructor
      · right
        rfl
      · intro k d d2 hd hd2
        simp [retryDelays] at hd
    case pos =>
      subst he
      by_cases hstop : soft = true ∧ nm_retry < retries + 1
      · have hrun : nfs_gss_clnt_ctx_init_retry soft nm_retry (ENEEDAUTH :: rest) retries timeo
            = RetryRes.done ETIMEDOUT [timeo] := by
          simp only [nfs_gss_clnt_ctx_init_retry]
          rw [if_neg (by simp), if_pos (by simpa using hstop)]
        rw [hrun]
        constructor
        · left
          rfl
        · intro k d d2 hd hd2
          rcases k with _ | k2 <;> simp [retryDelays] at hd hd2
      · rw [retry_delays_cons soft nm_retry rest retries timeo hstop]
        have iht := ih (retries + 1) (nfs_gss_retry_timeo_next timeo)
        constructor
        · left
          rfl
        · intro k d d2 hd hd2
          rcases k with _ | k2
          · rw [List.getElem?_cons_zero] at hd
            rw [List.getElem?_cons_succ] at hd2
            cases hd
            rcases iht.1 with hh | hh
            · rw [List.head?_eq_getElem? _] at hh
              rw [hd2] at hh
              cases hh
              rfl
            · rw [hh] at hd2
              simp at hd2
          · rw [List.getElem?_cons_succ] at hd hd2
            exact iht.2 k2 d d2 hd hd2

/-- Soft mounts give up: once the retry count would exceed nm_retry, the
loop returns ETIMEDOUT, having slept nm_retry - retries + 1 more delays. -/
theorem retry_soft_times_out (nm_retry : Nat) :
    ∀ (n retries timeo : Nat), retries ≤ nm_retry → nm_retry < retries + n →
    ∃ ds, nfs_gss_clnt_ctx_init_retry true nm_retry (List.replicate n ENEEDAUTH) retries timeo
        = RetryRes.done ETIMEDOUT ds ∧ ds.length = nm_retry - retries + 1 := by
  intro n
  induction n with
  | zero =>
    intro retries timeo h1 h2
    omega
  | succ n2 ih =>
    intro retries timeo h1 h2
    rw [List.replicate_succ]
    by_cases hstop : nm_retry < retries + 1
    · refine ⟨[timeo], ?_, ?_⟩
      · simp only [nfs_gss_clnt_ctx_init_retry]
        rw [if_neg (by simp), if_pos (by simpa using hstop)]
      · simp
        omega
    · obtain ⟨ds, hds, hlen⟩ := ih (retries + 1) (nfs_gss_retry_timeo_next timeo)
        (by omega) (by omega)
      refine ⟨timeo :: ds, ?_, ?_⟩
      · simp only [nfs_gss_clnt_ctx_init_retry]
        rw [if_neg (by simp), if_neg (by simpa using hstop), hds]
      · simp [hlen]
        omega

/-- Hard mounts never time out on their own: with only transient failures
the loop is still retrying when the trace ends, one slept delay per
attempt. -/
theorem retry_hard_keeps_retrying (nm_retry : Nat) :
    ∀ (n retries timeo : Nat),
    ∃ ds, nfs_gss_clnt_ctx_init_retry false nm_retry (List.replicate n ENEEDAUTH) retries timeo
        = RetryRes.pending ds ∧ ds.length = n := by
  intro n
  induction n with
  | zero =>
    intro retries timeo
    exact ⟨[], rfl, rfl⟩
  | succ n2 ih =>
    intro retries timeo
    obtain ⟨ds, hds, hlen⟩ := ih (retries + 1) (nfs_gss_retry_timeo_next timeo)
    refine ⟨timeo :: ds, ?_, by simp [hlen]⟩
    rw [List.replicate_succ]
    simp only [nfs_gss_clnt_ctx_init_retry]
    rw [if_neg (by simp), if_neg (by simp), hds]

/-- C9 (as amended): over a run of transient (ENEEDAUTH) context-setup
failures, the retry delay starts at NFS_TRYLATERDEL, doubles after each
attempt and is capped at 60 seconds; the mount-configured retry limit
applies to soft-mounted (or R_SOFT) requests, which surface ETIMEDOUT once
retries exceed nm_retry; hard mounts keep retrying (until interrupted or
unmounted, which this model does not exercise). -/
theorem init_retry_backoff_soft_limit (soft : Bool) (nm_retry n : Nat) :
    RetryBackoffPolicy soft nm_retry n := by
  unfold RetryBackoffPolicy
  refine ⟨(retry_delays_spec soft nm_retry _ 0 NFS_TRYLATERDEL).1,
          (retry_delays_spec soft nm_retry _ 0 NFS_TRYLATERDEL).2, ?_, ?_⟩
  · intro hsoft hn
    subst hsoft
    obtain ⟨ds, hds, hlen⟩ := retry_soft_times_out nm_retry n 0 NFS_TRYLATERDEL
      (by omega) (by omega)
    exact ⟨ds, hds, by omega⟩
  · intro hsoft
    subst hsoft
    exact retry_hard_keeps_retrying nm_retry n 0 NFS_TRYLATERDEL

/-- Witness for C9: a soft mount with nm_retry = 2 over five transient
failures, and a hard mount over the same trace. -/
theorem init_retry_backoff_soft_limit_witness :
    RetryBackoffPolicy true 2 5 ∧ RetryBackoffPolicy false 2 5 :=
  ⟨init_retry_backoff_soft_limit true 2 5, init_retry_backoff_soft_limit false 2 5⟩

/-- Counterexample for C9 as stated: the claim attributes the retry limit to
hard mounts and unbounded retrying to soft mounts, but on the trace
[ENEEDAUTH, ENEEDAUTH, 0] with nm_retry = 0 the SOFT run is the one that
stops with ETIMEDOUT (after one 4-second sleep), while the hard run keeps
going and succeeds after sleeping 4 and then 8 seconds. -/
theorem init_retry_soft_hard_inverted :
    nfs_gss_clnt_ctx_init_retry true 0 [ENEEDAUTH, ENEEDAUTH, 0] 0 NFS_TRYLATERDEL
      = RetryRes.done ETIMEDOUT [4]
    ∧ nfs_gss_clnt_ctx_init_retry false 0 [ENEEDAUTH, ENEEDAUTH, 0] 0 NFS_TRYLATERDEL
      = RetryRes.done 0 [4, 8] := by
  constructor
  · rfl
  · rfl

/-! ## Claim C5 -/

/-- One failed round, from either side, bumps retrycnt by one and leaves the
loop back at the upcall with proc reset to RPCSEC_GSS_INIT: a client-side
round consumes one upcall event; a server-side round consumes the
CONTINUE_NEEDED upcall and the server's non-terminal reply. -/
theorem init_run_fail_round (cnt : Nat) (fr : FailRound)
    (hfr : fr.nonTerminal = true) (rest : List InitEv) (k : Nat) (hk : k < cnt) :
    nfs_gss_clnt_ctx_init_run cnt (fr.events ++ rest)
        ⟨.atUpcall, k, RPCSEC_GSS_INIT, false, false⟩
      = nfs_gss_clnt_ctx_init_run cnt rest
        ⟨.atUpcall, k + 1, RPCSEC_GSS_INIT, false, false⟩ := by
  have hkn : ¬cnt ≤ k := by omega
  cases fr with
  | clnt b =>
    simp only [FailRound.nonTerminal, Bool.and_eq_true, bne_iff_ne, ne_eq] at hfr
    obtain ⟨hb0, hb1⟩ := hfr
    simp only [FailRound.events, List.cons_append, List.nil_append,
      nfs_gss_clnt_ctx_init_run]
    rw [if_neg (by simp [hkn])]
    have hstep : nfs_gss_clnt_ctx_init_step
        ⟨.atUpcall, k, RPCSEC_GSS_INIT, false, false⟩ (InitEv.up none b)
        = .cont ⟨.atUpcall, k + 1, RPCSEC_GSS_INIT, false, false⟩ := by
      simp [nfs_gss_clnt_ctx_init_step, hb0, hb1]
    rw [hstep]
    rfl
  | srvr b =>
    simp only [FailRound.nonTerminal, Bool.and_eq_true, bne_iff_ne, ne_eq] at hfr
    obtain ⟨hb0, hb1⟩ := hfr
    simp only [FailRound.events, List.cons_append, List.nil_append,
      nfs_gss_clnt_ctx_init_run]
    rw [if_neg (by simp [hkn])]
    have hstep1 : nfs_gss_clnt_ctx_init_step
        ⟨.atUpcall, k, RPCSEC_GSS_INIT, false, false⟩
        (InitEv.up none GSS_S_CONTINUE_NEEDED)
        = .cont ⟨.atServer, k, RPCSEC_GSS_INIT, false, false⟩ := by
      simp [nfs_gss_clnt_ctx_init_step, GSS_S_CONTINUE_NEEDED, GSS_S_COMPLETE]
    rw [hstep1]
    show nfs_gss_clnt_ctx_init_run cnt (InitEv.srv none b :: rest)
        ⟨.atServer, k, RPCSEC_GSS_INIT, false, false⟩ = _
    simp only [nfs_gss_clnt_ctx_init_run]
    rw [if_neg (by simp)]
    have hstep2 : nfs_gss_clnt_ctx_init_step
        ⟨.atServer, k, RPCSEC_GSS_INIT, false, false⟩ (InitEv.srv none b)
        = .cont ⟨.atUpcall, k + 1, RPCSEC_GSS_INIT, false, false⟩ := by
      simp [nfs_gss_clnt_ctx_init_step, hb0, hb1]
    rw [hstep2]

/-- When every negotiation round comes back with a non-terminal,
non-continuable major status - from the client-side upcall or from the
server's reply - each round bumps retrycnt (restarting at RPCSEC_GSS_INIT),
and as soon as retrycnt reaches the number of configured encryption types
the upcall's guard fails the negotiation with EACCES. -/
theorem init_run_exhausts_rounds (cnt : Nat) :
    ∀ (rs : List FailRound), (∀ fr ∈ rs, fr.nonTerminal = true) →
    ∀ k : Nat, k ≤ cnt → cnt ≤ k + rs.length →
    nfs_gss_clnt_ctx_init_run cnt (failTrace rs)
        ⟨.atUpcall, k, RPCSEC_GSS_INIT, false, false⟩
      = .fail EACCES ⟨.atUpcall, cnt, RPCSEC_GSS_INIT, false, false⟩ := by
  intro rs
  induction rs with
  | nil =>
    intro _ k h1 h2
    have hk : k = cnt := by simp at h2; omega
    subst hk
    simp [failTrace, nfs_gss_clnt_ctx_init_run]
  | cons fr rs2 ih =>
    intro hall k h1 h2
    have htr : failTrace (fr :: rs2) = fr.events ++ failTrace rs2 := by
      simp [failTrace]
    by_cases hk : cnt ≤ k
    · have hk2 : k = cnt := by omega
      subst hk2
      rw [htr]
      cases fr <;> simp [FailRound.events, nfs_gss_clnt_ctx_init_run]
    · rw [htr, init_run_fail_round cnt fr (hall fr (List.mem_cons_self fr rs2)) _ k (by omega)]
      exact ih (fun fr2 hm2 => hall fr2 (List.mem_cons_of_mem _ hm2)) (k + 1)
        (by omega) (by simp at h2 ⊢; omega)

/-- C5: when every negotiation round ends with a non-terminal,
non-continuable status from either side (a bad status straight from the gssd
upcall, or CONTINUE_NEEDED from the upcall followed by a bad status in the
server's reply), nfs_gss_clnt_ctx_init retries through the encryption types
and, once the retry count reaches the configured count, fails with the
upcall's EACCES and marks the context INVAL; the preference list sent to
gssd on retry r starts at the (r+1)-st reordered preference; and the
caller's outer retry loop surfaces the EACCES (an authentication rejection,
not a further retry). -/
theorem etype_exhaustion_fails_eaccess (e : NfsEtype) (rs : List FailRound) (r : Nat)
    (vm : Nat → List Nat → Bool) (w : Nat) (verf : List Nat)
    (soft : Bool) (nm_retry : Nat) (more : List Nat)
    (hrs : ∀ fr ∈ rs, fr.nonTerminal = true)
    (hm : e.etypes.length ≤ rs.length) :
    EtypeExhaustionFail e rs r vm w verf soft nm_retry more := by
  unfold EtypeExhaustionFail
  refine ⟨?_, rfl, ?_, rfl⟩
  · unfold nfs_gss_clnt_ctx_init initLoopSt
    rw [init_run_exhausts_rounds e.etypes.length rs hrs 0 (by omega) (by omega)]
    simp [EACCES, ENEEDAUTH]
  · unfold nfs_gss_upcall_etypes
    exact List.head?_drop _ _

/-- Witness for C5: three configured etypes with the middle one previously
selected, and three failed rounds mixing both sides - a CONTINUE_NEEDED
upcall answered by a bad server status, a bad upcall status, and another
server-side failure - at retry index 1. -/
theorem etype_exhaustion_fails_eaccess_witness :
    EtypeExhaustionFail ⟨1, [17, 18, 16]⟩
      [FailRound.srvr 99, FailRound.clnt 7, FailRound.srvr 2] 1
      (fun _ _ => true) 64 [] false 2 [] :=
  etype_exhaustion_fails_eaccess ⟨1, [17, 18, 16]⟩
    [FailRound.srvr 99, FailRound.clnt 7, FailRound.srvr 2] 1
    (fun _ _ => true) 64 [] false 2 [] (by decide) (by decide)

/-! ## Claim C4 -/

/-- A loop step can only break (.ok) on a client GSS_S_COMPLETE with the
server already complete, or on a server GSS_S_COMPLETE with the client
already complete; and a continuing step raises client_complete only on a
client GSS_S_COMPLETE event and server_complete only on a server
GSS_S_COMPLETE event. -/
theorem init_step_complete_sources (st : InitLoopSt) (ev : InitEv) :
    (∀ st2, nfs_gss_clnt_ctx_init_step st ev = .res (.ok st2) →
      (st.server_complete = true ∧ ev = InitEv.up none GSS_S_COMPLETE)
      ∨ (st.client_complete = true ∧ ev = InitEv.srv none GSS_S_COMPLETE))
    ∧ (∀ st2, nfs_gss_clnt_ctx_init_step st ev = .cont st2 →
      (st2.client_complete = true →
        st.client_complete = true ∨ ev = InitEv.up none GSS_S_COMPLETE)
      ∧ (st2.server_complete = true →
        st.server_complete = true ∨ ev = InitEv.srv none GSS_S_COMPLETE)) := by
  obtain ⟨ph, rc, pr, cc, sc⟩ := st
  cases ph <;> rcases ev with ⟨oe, maj⟩ | ⟨oe, maj⟩ <;> rcases oe with _ | e <;>
    (constructor <;> intro st2 h <;> simp only [nfs_gss_clnt_ctx_init_step] at h) <;>
    (try split_ifs at h with h1 h2) <;> (try cases h) <;> simp_all

/-- If the negotiation loop breaks with the both-complete .ok result, then a
client-side GSS_S_COMPLETE upcall outcome and a server-side GSS_S_COMPLETE
reply both occurred in the consumed trace (unless the corresponding side was
already complete at entry). -/
theorem init_run_ok_reported (cnt : Nat) :
    ∀ (evs : List InitEv) (st st2 : InitLoopSt),
    nfs_gss_clnt_ctx_init_run cnt evs st = .ok st2 →
    (st.client_complete = false → InitEv.up none GSS_S_COMPLETE ∈ evs)
    ∧ (st.server_complete = false → InitEv.srv none GSS_S_COMPLETE ∈ evs) := by
  intro evs
  induction evs with
  | nil =>
    intro st st2 h
    simp only [nfs_gss_clnt_ctx_init_run] at h
    split at h <;> cases h
  | cons ev rest ih =>
    intro st st2 h
    simp only [nfs_gss_clnt_ctx_init_run] at h
    split at h
    · cases h
    · cases hstep : nfs_gss_clnt_ctx_init_step st ev with
      | res r =>
        rw [hstep] at h
        dsimp only at h
        subst h
        rcases (init_step_complete_sources st ev).1 st2 hstep with ⟨hsc, hev⟩ | ⟨hcc, hev⟩
        · subst hev
          constructor
          · intro _
            exact List.mem_cons_self _ _
          · intro hscf
            rw [hscf] at hsc
            cases hsc
        · subst hev
          constructor
          · intro hccf
            rw [hccf] at hcc
            cases hcc
          · intro _
            exact List.mem_cons_self _ _
      | cont stc =>
        rw [hstep] at h
        dsimp only at h
        have ihm := ih stc st2 h
        have hflags := (init_step_complete_sources st ev).2 stc hstep
        constructor
        · intro hccf
          by_cases hc2 : stc.client_complete = true
          · rcases hflags.1 hc2 with hup | hev
            · rw [hccf] at hup
              cases hup
            · rw [hev]
              exact List.mem_cons_self _ _
          · exact List.mem_cons_of_mem _ (ihm.1 (by simpa using hc2))
        · intro hscf
          by_cases hs2 : stc.server_complete = true
          · rcases hflags.2 hs2 with hsv | hev
            · rw [hscf] at hsv
              cases hsv
            · rw [hev]
              exact List.mem_cons_self _ _
          · exact List.mem_cons_of_mem _ (ihm.2 (by simpa using hs2))

/-- C4: when nfs_gss_clnt_ctx_init returns, the context is in the COMPLETE
lifecycle state only if the loop reached its both-sides-complete break (both
a client-side and a server-side GSS_S_COMPLETE occurred in the trace), the
saved verifier checked out as a MIC over the negotiated sequence window, and
the call returned 0; and when the loop broke but that verification fails,
the caller receives NFSERR_EAUTH and the context ends INVALID. -/
theorem ctx_init_complete_requires_both_and_verify (cnt : Nat) (evs : List InitEv)
    (vm : Nat → List Nat → Bool) (w : Nat) (verf : List Nat) (out : InitOutcome)
    (hout : nfs_gss_clnt_ctx_init cnt evs vm w verf = some out) :
    InitCompleteConditions cnt evs vm w verf out := by
  unfold InitCompleteConditions
  unfold nfs_gss_clnt_ctx_init at hout
  cases hrun : nfs_gss_clnt_ctx_init_run cnt evs initLoopSt with
  | stuck =>
    rw [hrun] at hout
    cases hout
  | fail e st =>
    rw [hrun] at hout
    dsimp only at hout
    constructor
    · intro hcmp
      exfalso
      split at hout <;> cases hout <;> simp [ctxLifeState] at hcmp
    · intro st0 hok
      cases hok
  | ok st =>
    rw [hrun] at hout
    dsimp only at hout
    by_cases hvm : vm w verf = true
    · rw [if_pos hvm] at hout
      cases hout
      constructor
      · intro _
        have hmem := init_run_ok_reported cnt evs initLoopSt st hrun
        exact ⟨hvm, rfl, hmem.1 rfl, hmem.2 rfl⟩
      · intro st0 _ hvf
        rw [hvm] at hvf
        cases hvf
    · rw [if_neg hvm] at hout
      cases hout
      constructor
      · intro hcmp
        simp [ctxLifeState] at hcmp
      · intro st0 _ _
        exact ⟨rfl, rfl⟩

/-- Witness for C4: a one-round negotiation (client COMPLETE, then server
COMPLETE) with a succeeding verifier check yields outcome (0, COMPLETE). -/
theorem ctx_init_complete_requires_both_and_verify_witness :
    InitCompleteConditions 3 [InitEv.up none GSS_S_COMPLETE, InitEv.srv none GSS_S_COMPLETE]
      (fun _ _ => true) 64 [1] ⟨0, true, false, RPCSEC_GSS_DATA⟩ :=
  ctx_init_complete_requires_both_and_verify 3
    [InitEv.up none GSS_S_COMPLETE, InitEv.srv none GSS_S_COMPLETE]
    (fun _ _ => true) 64 [1] ⟨0, true, false, RPCSEC_GSS_DATA⟩ rfl

/-! ## Claim C3 -/

theorem mchain_flatten_drop_empty (c : Mchain) :
    mchain_flatten (mchain_drop_empty c) = mchain_flatten c := by
  induction c with
  | nil => rfl
  | cons b bs ih =>
    unfold mchain_drop_empty
    by_cases hb : b.length = 0
    · rw [if_pos hb]
      have hbe : b = [] := List.length_eq_zero.mp hb
      subst hbe
      simpa [mchain_flatten] using ih
    · rw [if_neg hb]

theorem mchain_drop_empty_append (body : Mchain) (m : List Nat)
    (h : mchain_flatten body ≠ []) :
    mchain_drop_empty (body ++ [m]) = mchain_drop_empty body ++ [m] := by
  induction body with
  | nil => exact absurd rfl h
  | cons b bs ih =>
    by_cases hb : b.length = 0
    · have hbe : b = [] := List.length_eq_zero.mp hb
      subst hbe
      have hbs : mchain_flatten bs ≠ [] := by simpa [mchain_flatten] using h
      simpa [mchain_drop_empty] using ih hbs
    · simp [mchain_drop_empty, hb]

theorem mchain_length_eq_flatten (c : Mchain) :
    nfs_gss_mchain_length c = (mchain_flatten c).length := by
  unfold nfs_gss_mchain_length mchain_flatten
  rw [List.length_flatten]

theorem txdr32_length (v : Nat) : (txdr32 v).length = 4 := rfl

theorem mbuf_adj_head (x : List Nat) (t : Mchain) (n : Nat) (h : n ≤ x.length) :
    mbuf_adj (x :: t) n = x.drop n :: t := by
  unfold mbuf_adj
  rw [if_pos h]

/-- The MIC-dropping walk consumes exactly the bytes of the argument chain
and chops everything after them. -/
theorem integ_walk_exact (m : List Nat) :
    ∀ (bs : Mchain), ∃ k,
      rpc_gss_integ_restore_walk (bs ++ [m]) (mchain_flatten bs).length = .ok k
      ∧ mchain_flatten k = mchain_flatten bs := by
  intro bs
  induction bs with
  | nil =>
    refine ⟨[], ?_, rfl⟩
    simp only [List.nil_append, mchain_flatten, List.flatten_nil, List.length_nil]
    unfold rpc_gss_integ_restore_walk
    rw [if_pos rfl]
  | cons b t ih =>
    by_cases hz : (mchain_flatten (b :: t)).length = 0
    · refine ⟨[], ?_, ?_⟩
      · rw [hz]
        unfold rpc_gss_integ_restore_walk
        simp
      · simp only [mchain_flatten, List.flatten_nil]
        exact (List.length_eq_zero.mp hz).symm
    · obtain ⟨k, hk, hfk⟩ := ih
      refine ⟨b :: k, ?_, ?_⟩
      · have hlen : (mchain_flatten (b :: t)).length
            = b.length + (mchain_flatten t).length := by
          simp [mchain_flatten]
        rw [List.cons_append]
        unfold rpc_gss_integ_restore_walk
        rw [if_neg hz, if_pos (by omega)]
        rw [show (mchain_flatten (b :: t)).length - b.length
            = (mchain_flatten t).length by omega]
        rw [hk]
      · simp [mchain_flatten] at hfk ⊢
        exact hfk

/-- INTEGRITY round trip for a body with at least one byte: restoring the
created rpc_gss_integ_data at the recorded length recovers exactly the
original body bytes. -/
theorem integ_round_trip (mic : List Nat → List Nat) (body : Mchain) (seqnum : Nat)
    (hlen : 1 ≤ (mchain_flatten body).length) : IntegRoundTrip mic body seqnum := by
  unfold IntegRoundTrip rpc_gss_integ_data_create rpc_gss_integ_data_restore
  dsimp only
  rw [rpc_gss_data_create, rpc_gss_prepend_32]
  rw [List.cons_append]
  rw [mbuf_adj_head _ _ _ (by simp [txdr32, NFSX_UNSIGNED])]
  rw [show ((txdr32 (nfs_gss_mchain_length body + NFSX_UNSIGNED) ++ txdr32 seqnum).drop
      (2 * NFSX_UNSIGNED)) = [] from rfl]
  have hne : mchain_flatten body ≠ [] := by
    intro hc
    rw [hc] at hlen
    simp at hlen
  rw [show mchain_drop_empty ([] :: (body ++ [txdr32 (mic (mchain_flatten
      (txdr32 seqnum :: body))).length ++ mic (mchain_flatten (txdr32 seqnum :: body))
      ++ List.replicate (nfsm_pad (mic (mchain_flatten (txdr32 seqnum :: body))).length) 0]))
      = mchain_drop_empty (body ++ [txdr32 (mic (mchain_flatten
      (txdr32 seqnum :: body))).length ++ mic (mchain_flatten (txdr32 seqnum :: body))
      ++ List.replicate (nfsm_pad (mic (mchain_flatten (txdr32 seqnum :: body))).length) 0])
      from rfl]
  rw [mchain_drop_empty_append _ _ hne]
  rw [if_neg (by rw [mchain_length_eq_flatten]; omega)]
  rw [mchain_length_eq_flatten]
  rw [show (mchain_flatten body).length = (mchain_flatten (mchain_drop_empty body)).length
      by rw [mchain_flatten_drop_empty]]
  obtain ⟨k, hk, hfk⟩ := integ_walk_exact _ (mchain_drop_empty body)
  refine ⟨k, hk, ?_⟩
  rw [hfk, mchain_flatten_drop_empty]

/-- PRIVACY round trip: restoring the created rpc_gss_priv_data at the
recorded token length recovers exactly the original body bytes, provided the
opaque GSS capability satisfies unwrap (wrap x) = x. -/
theorem priv_round_trip (wrap unwrap : List Nat → List Nat)
    (hwu : ∀ x, unwrap (wrap x) = x) (body : Mchain) (seqnum : Nat) :
    PrivRoundTrip wrap unwrap body seqnum := by
  have key : ∀ tok : List Nat, unwrap tok = txdr32 seqnum ++ mchain_flatten body →
      ∃ r, rpc_gss_priv_data_restore unwrap
        ((if nfsm_pad tok.length ≠ 0
          then [txdr32 tok.length ++ tok, List.replicate (nfsm_pad tok.length) 0]
          else [txdr32 tok.length ++ tok]) : Mchain) tok.length = .ok r
        ∧ mchain_flatten r = mchain_flatten body := by
    intro tok hrec
    have hdrop : (txdr32 tok.length ++ tok).drop NFSX_UNSIGNED = tok := by
      rw [show NFSX_UNSIGNED = (txdr32 tok.length).length from rfl]
      exact List.drop_left _ _
    by_cases hpad : nfsm_pad tok.length = 0
    · rw [if_neg (by simp [hpad])]
      unfold rpc_gss_priv_data_restore
      rw [mbuf_adj_head _ _ _ (by simp [txdr32, NFSX_UNSIGNED])]
      rw [hdrop]
      dsimp only
      rw [if_neg (by simp [hpad])]
      dsimp only
      rw [show (mchain_flatten [tok]).take tok.length = tok by
        simp [mchain_flatten]]
      rw [hrec]
      rw [show (txdr32 seqnum ++ mchain_flatten body).take NFSX_UNSIGNED = txdr32 seqnum by
        rw [show NFSX_UNSIGNED = (txdr32 seqnum).length from rfl]
        exact List.take_left _ _]
      rw [show (txdr32 seqnum ++ mchain_flatten body).drop NFSX_UNSIGNED
          = mchain_flatten body by
        rw [show NFSX_UNSIGNED = (txdr32 seqnum).length from rfl]
        exact List.drop_left _ _]
      rw [mbuf_adj_head _ _ _ (by rw [txdr32_length]; decide)]
      refine ⟨_, rfl, ?_⟩
      rw [mchain_flatten_drop_empty]
      simp [mchain_flatten, txdr32, NFSX_UNSIGNED]
    · rw [if_pos hpad]
      have hlen0 : tok.length ≠ 0 := by
        intro h0
        rw [h0] at hpad
        exact hpad rfl
      obtain ⟨n, hn⟩ : ∃ n, tok.length = n + 1 := ⟨tok.length - 1, by omega⟩
      have hwalk : rpc_gss_priv_restore_walk [tok, List.replicate (nfsm_pad tok.length) 0]
          tok.length = .ok [tok] := by
        conv_lhs => rw [hn]
        simp only [rpc_gss_priv_restore_walk]
        rw [if_neg (by omega)]
        rw [show n + 1 - tok.length = 0 by omega]
        simp only [rpc_gss_priv_restore_walk]
        rw [if_neg (by simp)]
      unfold rpc_gss_priv_data_restore
      rw [mbuf_adj_head _ _ _ (by simp [txdr32, NFSX_UNSIGNED])]
      rw [hdrop]
      dsimp only
      rw [if_pos hpad, hwalk]
      dsimp only
      rw [show (mchain_flatten [tok]).take tok.length = tok by
        simp [mchain_flatten]]
      rw [hrec]
      rw [show (txdr32 seqnum ++ mchain_flatten body).take NFSX_UNSIGNED = txdr32 seqnum by
        rw [show NFSX_UNSIGNED = (txdr32 seqnum).length from rfl]
        exact List.take_left _ _]
      rw [show (txdr32 seqnum ++ mchain_flatten body).drop NFSX_UNSIGNED
          = mchain_flatten body by
        rw [show NFSX_UNSIGNED = (txdr32 seqnum).length from rfl]
        exact List.drop_left _ _]
      rw [mbuf_adj_head _ _ _ (by rw [txdr32_length]; decide)]
      refine ⟨_, rfl, ?_⟩
      rw [mchain_flatten_drop_empty]
      simp [mchain_flatten, txdr32, NFSX_UNSIGNED]
  unfold PrivRoundTrip
  have hcreate : rpc_gss_priv_data_create wrap body seqnum
      = ((if nfsm_pad (wrap (mchain_flatten (txdr32 seqnum :: body))).length ≠ 0
          then [txdr32 (wrap (mchain_flatten (txdr32 seqnum :: body))).length
                  ++ wrap (mchain_flatten (txdr32 seqnum :: body)),
                List.replicate
                  (nfsm_pad (wrap (mchain_flatten (txdr32 seqnum :: body))).length) 0]
          else [txdr32 (wrap (mchain_flatten (txdr32 seqnum :: body))).length
                  ++ wrap (mchain_flatten (txdr32 seqnum :: body))]),
         (wrap (mchain_flatten (txdr32 seqnum :: body))).length) := by
    simp only [rpc_gss_priv_data_create, rpc_gss_data_create, rpc_gss_prepend_32,
      List.cons_append, List.nil_append]
  rw [hcreate]
  dsimp only
  exact key (wrap (mchain_flatten (txdr32 seqnum :: body)))
    (by rw [hwu]; simp [mchain_flatten])

/-- C3 (as amended): encoding a call body under INTEGRITY or PRIVACY
protection and decoding with the matching restore at the recorded length
yields exactly the original body bytes — for PRIVACY at every body length
(including 0), and for INTEGRITY for bodies of length at least 1 (lengths 1
and 13 included); a length-0 INTEGRITY body is excluded, because the
restore's chop loop never runs and the MIC sub-chain is left attached. -/
theorem rpc_gss_round_trip (mic wrap unwrap : List Nat → List Nat)
    (hwu : ∀ x, unwrap (wrap x) = x) (body : Mchain) (seqnum : Nat) :
    (1 ≤ (mchain_flatten body).length → IntegRoundTrip mic body seqnum)
    ∧ PrivRoundTrip wrap unwrap body seqnum :=
  ⟨fun h => integ_round_trip mic body seqnum h,
   priv_round_trip wrap unwrap hwu body seqnum⟩

/-- Witness for C3: a 13-byte body split over three mbufs (a length that
needs XDR padding), with a concrete MIC function and a concrete
wrap/unwrap pair whose token length (18) also forces padding. -/
theorem rpc_gss_round_trip_witness :
    (1 ≤ (mchain_flatten [[1], [2, 3, 4, 5], [6, 7, 8, 9, 10, 11, 12, 13]]).length →
      IntegRoundTrip (fun l => [l.length % 256])
        [[1], [2, 3, 4, 5], [6, 7, 8, 9, 10, 11, 12, 13]] 7)
    ∧ PrivRoundTrip (fun l => 0 :: l) (fun l => l.drop 1)
        [[1], [2, 3, 4, 5], [6, 7, 8, 9, 10, 11, 12, 13]] 7 :=
  rpc_gss_round_trip (fun l => [l.length % 256]) (fun l => 0 :: l) (fun l => l.drop 1)
    (fun _ => rfl) [[1], [2, 3, 4, 5], [6, 7, 8, 9, 10, 11, 12, 13]] 7

/-- Counterexample for C3 as stated: for the length-0 body (which the claim
explicitly includes) under INTEGRITY, rpc_gss_integ_data_restore of the
created chain returns successfully but yields the MIC sub-chain
(mic-length word, MIC bytes and padding) instead of the empty body: the
`for (; mb && len; ...)` loop of nfs_gss.c:344 never runs when len = 0, so
`tail` stays NULL and the MIC is never chopped off. -/
theorem integ_round_trip_fails_len0 :
    rpc_gss_integ_data_restore (rpc_gss_integ_data_create (fun _ => [7, 7]) [] 42).1
        (rpc_gss_integ_data_create (fun _ => [7, 7]) [] 42).2
      = .ok [[0, 0, 0, 2, 7, 7, 0, 0]]
    ∧ mchain_flatten [[0, 0, 0, 2, 7, 7, 0, 0]] ≠ mchain_flatten ([] : Mchain) := by
  constructor
  · rfl
  · decide

/-! ## Claim C1 -/

theorem getD_set_true_mono (l : List Bool) (i j : Nat) (h : l.getD j false = true) :
    (l.set i true).getD j false = true := by
  induction l generalizing i j with
  | nil => simpa [List.getD] using h
  | cons a t ih =>
    cases i with
    | zero =>
      cases j with
      | zero => simp [List.set, List.getD]
      | succ j2 => simpa [List.set, List.getD] using h
    | succ i2 =>
      cases j with
      | zero => simpa [List.set, List.getD] using h
      | succ j2 =>
        simp only [List.set, List.getD] at h ⊢
        exact ih i2 j2 h

theorem acquireN_invariants (k : Nat) : ∀ cp : ClntCtx,
    (cred_put_seq_acquireN cp k).seqwin = cp.seqwin
    ∧ (cred_put_seq_acquireN cp k).flags = cp.flags
    ∧ (cred_put_seq_acquireN cp k).seqbits.length = cp.seqbits.length := by
  induction k with
  | zero => exact fun cp => ⟨rfl, rfl, rfl⟩
  | succ k2 ih =>
    intro cp
    have h2 := ih (cred_put_seq_acquire cp).1
    simp only [cred_put_seq_acquireN]
    refine ⟨h2.1.trans ?_, h2.2.1.trans ?_, h2.2.2.trans ?_⟩
    · rfl
    · rfl
    · simp [cred_put_seq_acquire, win_setbit]

theorem acquireN_seqnum (k : Nat) : ∀ cp : ClntCtx, cp.seqnum + k < UINT32_MOD →
    (cred_put_seq_acquireN cp k).seqnum = cp.seqnum + k := by
  induction k with
  | zero => exact fun cp _ => rfl
  | succ k2 ih =>
    intro cp hb
    simp only [cred_put_seq_acquireN]
    have hstep : (cred_put_seq_acquire cp).1.seqnum = cp.seqnum + 1 := by
      simp [cred_put_seq_acquire]
      exact add32_eq_add (by omega)
    rw [ih (cred_put_seq_acquire cp).1 (by rw [hstep]; omega), hstep]
    omega

theorem acquireN_bit_mono (k : Nat) : ∀ (cp : ClntCtx) (j : Nat),
    win_getbit cp.seqbits j = true →
    win_getbit (cred_put_seq_acquireN cp k).seqbits j = true := by
  induction k with
  | zero => exact fun cp j h => h
  | succ k2 ih =>
    intro cp j h
    simp only [cred_put_seq_acquireN]
    apply ih
    unfold cred_put_seq_acquire win_setbit
    dsimp only
    exact getD_set_true_mono _ _ _ h

theorem acquireN_comp (a : Nat) : ∀ (b : Nat) (cp : ClntCtx),
    cred_put_seq_acquireN cp (a + b) = cred_put_seq_acquireN (cred_put_seq_acquireN cp a) b := by
  induction a with
  | zero =>
    intro b cp
    rw [Nat.zero_add]
    rfl
  | succ a2 ih =>
    intro b cp
    rw [show a2 + 1 + b = (a2 + b) + 1 by omega]
    simp only [cred_put_seq_acquireN]
    exact ih b (cred_put_seq_acquire cp).1

/-- C1: on a fresh COMPLETE context with window `win` and seeded counter
`s0` (nfs_gss_clnt_ctx_init seeds `seqnum = random + seqwin`, giving
`win ≤ s0`), `win` acquisitions fill the bitmap and make the cred_put wait
condition true (the next acquirer blocks on the oldest slot's bit);
completing the request holding the oldest outstanding number `s0+1` wakes
the GSS_NEEDSEQ waiter and clears the blocking bit; the resumed waiter
increments the counter to the strictly larger `s0+win+1`, sets its bit at
`seqnum mod win`, and the wait condition is immediately true again, so
exactly one blocked waiter gets through per release. -/
theorem seq_window_block_unblock (win s0 : Nat) (hwin : 0 < win) (hs0 : win ≤ s0)
    (hmax : s0 + win + 1 < UINT32_MOD) : SeqWindowBlockUnblock win s0 := by
  have hinv := acquireN_invariants win (freshWinCtx win s0)
  have hW : (cred_put_seq_acquireN (freshWinCtx win s0) win).seqnum = s0 + win :=
    acquireN_seqnum win _ (by simp [freshWinCtx]; omega)
  have hWwin : (cred_put_seq_acquireN (freshWinCtx win s0) win).seqwin = win := hinv.1
  have hWflags : (cred_put_seq_acquireN (freshWinCtx win s0) win).flags
      = ⟨true, false, false, false, false, false, false⟩ := hinv.2.1.trans rfl
  have hWlen : (cred_put_seq_acquireN (freshWinCtx win s0) win).seqbits.length = win := by
    rw [hinv.2.2]
    simp [freshWinCtx]
  have hsub : sub32 (s0 + win) win = s0 := by
    rw [sub32_eq_sub (by omega) (by omega)]
    omega
  have hsub2 : sub32 (s0 + win + 1) win = s0 + 1 := by
    rw [sub32_eq_sub (by omega) (by omega)]
    omega
  have hadd1 : add32 s0 1 = s0 + 1 := add32_eq_add (by omega)
  have haddW : add32 (s0 + win) 1 = s0 + win + 1 := add32_eq_add (by omega)
  have hadd2 : add32 (s0 + 1) 1 = s0 + 2 := add32_eq_add (by omega)
  have hmod21 : (s0 + win + 1) % win = (s0 + 1) % win := by
    rw [show s0 + win + 1 = (s0 + 1) + win by omega]
    exact Nat.add_mod_right _ _
  have hlt1 : s0 < s0 + 1 := by omega
  have hbitsW1 : win_getbit
      (cred_put_seq_acquireN (freshWinCtx win s0) win).seqbits ((s0 + 1) % win) = true := by
    have hcomp := acquireN_comp 1 (win - 1) (freshWinCtx win s0)
    rw [show (1 : Nat) + (win - 1) = win by omega] at hcomp
    rw [hcomp]
    apply acquireN_bit_mono
    show win_getbit (cred_put_seq_acquire (freshWinCtx win s0)).1.seqbits
        ((s0 + 1) % win) = true
    simp only [cred_put_seq_acquire, freshWinCtx]
    rw [hadd1]
    unfold win_setbit win_getbit
    exact getD_set_self (by simp [Nat.mod_lt _ hwin])
  have hbitsW2 : 2 ≤ win → win_getbit
      (cred_put_seq_acquireN (freshWinCtx win s0) win).seqbits ((s0 + 2) % win) = true := by
    intro h2
    have hcomp := acquireN_comp 2 (win - 2) (freshWinCtx win s0)
    rw [show (2 : Nat) + (win - 2) = win by omega] at hcomp
    rw [hcomp]
    apply acquireN_bit_mono
    show win_getbit
        (cred_put_seq_acquire (cred_put_seq_acquire (freshWinCtx win s0)).1).1.seqbits
        ((s0 + 2) % win) = true
    simp only [cred_put_seq_acquire, freshWinCtx]
    rw [hadd1, hadd2]
    unfold win_setbit win_getbit
    exact getD_set_self (by
      rw [List.length_set]
      simp [Nat.mod_lt _ hwin])
  have hne12 : 2 ≤ win → ¬((s0 + 2) % win = (s0 + 1) % win) := by
    intro h2 heq
    have hx : (s0 + 1) % win < win := Nat.mod_lt _ (by omega)
    have h1w : 1 % win = 1 := Nat.mod_eq_of_lt (by omega)
    have hstep : (s0 + 2) % win = ((s0 + 1) % win + 1) % win := by
      conv_lhs => rw [show s0 + 2 = (s0 + 1) + 1 by omega]
      rw [Nat.add_mod, h1w]
    rw [hstep] at heq
    by_cases hxx : (s0 + 1) % win + 1 < win
    · rw [Nat.mod_eq_of_lt hxx] at heq
      omega
    · have hxw : (s0 + 1) % win + 1 = win := by omega
      rw [hxw, Nat.mod_self] at heq
      omega
  unfold SeqWindowBlockUnblock
  refine ⟨hW, ?_, ?_, ?_, ?_, ?_, ?_, ?_⟩
  · unfold cred_put_seq_blocked
    rw [hW, hWwin, hsub, hadd1]
    exact hbitsW1
  · simp [nfs_gss_clnt_rpcdone, hWflags, hW, hWwin, hsub, hlt1]
  · simp [nfs_gss_clnt_rpcdone, cred_put_seq_blocked, hWflags, hW, hWwin, hsub,
      hadd1, hlt1]
    unfold win_resetbit win_getbit
    rw [getD_set_self (by rw [hWlen]; exact Nat.mod_lt _ hwin)]
  · simp [nfs_gss_clnt_rpcdone, cred_put_seq_acquire, hWflags, hW, hWwin, hsub,
      hlt1, haddW]
  · simp only [nfs_gss_clnt_rpcdone, cred_put_seq_acquire, hWflags, hW, hWwin, hsub]
    simp [hlt1, haddW, hW]
  · simp [nfs_gss_clnt_rpcdone, cred_put_seq_acquire, hWflags, hW, hWwin, hsub,
      hlt1, haddW, hmod21]
    unfold win_setbit win_resetbit win_getbit
    exact getD_set_self (by
      rw [List.length_set, hWlen]
      exact Nat.mod_lt _ hwin)
  · simp [nfs_gss_clnt_rpcdone, cred_put_seq_acquire, cred_put_seq_blocked, hWflags,
      hW, hWwin, hsub, hlt1, haddW, hsub2, hadd2, hmod21]
    by_cases h2 : 2 ≤ win
    · unfold win_setbit win_resetbit win_getbit
      rw [getD_set_ne (fun hc => hne12 h2 hc.symm)]
      rw [getD_set_ne (fun hc => hne12 h2 hc.symm)]
      exact hbitsW2 h2
    · have hw1 : win = 1 := by omega
      subst hw1
      simp only [Nat.mod_one]
      unfold win_setbit win_resetbit win_getbit
      exact getD_set_self (by
        rw [List.length_set, hWlen]
        omega)

/-- Witness for C1: window 4 seeded at 1000 — acquisitions 1001..1004 fill
the window, releasing 1001 unblocks exactly one waiter which gets 1005. -/
theorem seq_window_block_unblock_witness : SeqWindowBlockUnblock 4 1000 :=
  seq_window_block_unblock 4 1000 (by decide) (by decide) (by decide)
